import Mathlib

/-!
# The disassembly widget of Cutter (`src/widgets/DisassemblyWidget.cpp`)

A shallow embedding of the window and cursor logic of `DisassemblyWidget` and of the jump overlay
of `DisassemblyLeftPanel`, with the properties of the specification proved or refuted on it.

## The model

* Addresses (`RVA`) are natural numbers; the code only compares them.  `int` values are integers;
  no arithmetic of the modelled code leaves the range of `int` for documents of real size.
* The text document of `mDisasTextEdit` is the list of its paragraphs (`QTextBlock`s), each
  carrying the `DisassemblyLine` attached with `setUserData`, or nothing.  One fetched line is
  rendered as one paragraph and a paragraph keeps its user data when text after it is removed.
  Paragraph formats (the breakpoint background) and the markup do not influence any branch of
  the code and are not represented; neither are the context menu, the scroll bars and
  `curHighlightedWord`.
* A text cursor is the number of the paragraph it stands in; the column is never read by the
  code.  Word wrap is off, so a paragraph is one line and `QTextCursor::Down` goes to the next
  paragraph.  A cursor of the document that stands where text is inserted moves with the
  insertion, one that stands in removed text ends where the removal starts.
* The external collaborators (`Core()`, the refresh deferrer, the text search of the toolkit) are
  the fields of `Env`; a handler runs to its end with one `Env`.
* While the `cursorPositionChanged` signal is disconnected, changes of the cursor do not call
  the slot; `moveCursor` in `moveCursorRelative` and the clicks of the user emit it.  The
  `traced` variants of `refreshDisasm` and `updateCursorPosition` are the same statements with
  every call that edits the text edit recorded together with the number of connections.
* The painter of the left panel receives a list of commands, all with the one pen set at the
  start of `paintEvent` and no brush.  A polygon without points paints nothing, and a shape
  painted a second time at the same place leaves the panel as it is: the picture is the set of
  the shapes given (`picture`).
-/

namespace Cutter

/-- Modelled from the spec: the header defining `RVA` is not part of the sources; an address is
an unsigned 64-bit number and `RVA_MAX` is the maximum representable address. -/
def RVA_MAX : Nat := 18446744073709551615

/-- Modelled from the spec: the header defining `RVA_INVALID` is not part of the sources; the
"invalid" sentinel is the same value as the "unbounded-high" bottom sentinel. -/
def RVA_INVALID : Nat := RVA_MAX

/-- The value type `DisassemblyLine` as the source uses it: `offset`, `text` and `arrow`
(the jump target, 0 when the line does not jump). -/
structure DisassemblyLine where
  offset : Nat
  text : String
  arrow : Nat
  deriving DecidableEq, Repr, Inhabited

/-- A paragraph of the document: the user data attached to the block, if any. -/
abbrev Block := Option DisassemblyLine

/-- One entry of the extra selections installed by `highlightCurrentLine`, with the paragraph
its cursor stands in. -/
inductive ExtraSelection where
  | currentLine (block : Nat)
  | word (block : Nat)
  | pcLine (block : Nat)
  deriving DecidableEq, Repr

/-- The paragraph an extra selection sits in. -/
def ExtraSelection.block : ExtraSelection → Nat
  | .currentLine b => b
  | .word b => b
  | .pcLine b => b

/-- Move the cursor of an extra selection with `f`. -/
def ExtraSelection.mapBlock (f : Nat → Nat) : ExtraSelection → ExtraSelection
  | .currentLine b => .currentLine (f b)
  | .word b => .word (f b)
  | .pcLine b => .pcLine (f b)

/-- The external collaborators as seen during one event handler. -/
structure Env where
  /-- The result of `disasmRefresh->attemptRefresh(p)`: false when the refresh is deferred. -/
  attemptRefresh : Option Nat → Bool
  /-- The lines of `Core()->disassembleLines(offset, count)`. -/
  disassembleLines : Nat → Int → List DisassemblyLine
  /-- The address of `Core()->nextOpAddr(addr, count)`. -/
  nextOpAddr : Nat → Int → Nat
  /-- The address of `Core()->prevOpAddr(addr, count)`. -/
  prevOpAddr : Nat → Int → Nat
  /-- The value of `Core()->getProgramCounterValue()`. -/
  getProgramCounterValue : Nat
  /-- The paragraphs in which `QTextDocument::find` meets the word under a cursor standing in
  the given paragraph of the given document. -/
  findWord : List Block → Nat → List Nat

/-- The members of `DisassemblyWidget` that the modelled code reads or writes, with the state of
the text edit (`blocks`, `cursor`, `extraSelections`), the offset of `seekable` and the number of
connections of the `cursorPositionChanged` signal to the slot. -/
structure DisassemblyWidget where
  topOffset : Nat
  bottomOffset : Nat
  maxLines : Int
  cursorLineOffset : Int
  seekFromCursor : Bool
  lines : List DisassemblyLine
  blocks : List Block
  cursor : Nat
  extraSelections : List ExtraSelection
  seekOffset : Nat
  connections : Nat
  deriving DecidableEq, Repr

/-- The address read off a paragraph: `getUserData` + `line.offset`, `RVA_INVALID` without
user data. -/
def blockOffset (b : Block) : Nat :=
  match b with
  | some line => line.offset
  | none => RVA_INVALID

/-- `readDisassemblyOffset(tc)`: the address attached to the paragraph of cursor `tc`. -/
def readDisassemblyOffset (blocks : List Block) (tc : Nat) : Nat :=
  match blocks[tc]? with
  | some b => blockOffset b
  | none => RVA_INVALID

/-- `readCurrentDisassemblyOffset()`. -/
def readCurrentDisassemblyOffset (w : DisassemblyWidget) : Nat :=
  readDisassemblyOffset w.blocks w.cursor

/-- `connectCursorPositionChanged(disconnect)`: `QObject::disconnect` removes every connection
of the signal to the slot, `connect` adds one. -/
def connectCursorPositionChanged (w : DisassemblyWidget) (disconnect : Bool) : DisassemblyWidget :=
  if disconnect then { w with connections := 0 }
  else { w with connections := w.connections + 1 }

/-- `movePosition(QTextCursor::Down, MoveAnchor, n)` from paragraph `i` (word wrap is off, a
paragraph is one line): `n` steps down, stopping in the last paragraph. -/
def moveDown (blocks : List Block) (i n : Nat) : Nat :=
  min (i + n) (blocks.length - 1)

/-- The two line-highlighting loops of `highlightCurrentLine`: walk from the first paragraph,
collect the paragraphs whose address is `target`, stop after a paragraph with a valid address
above `target` or at the end of the document. -/
def highlightLoop (target : Nat) : Nat → List Block → List Nat
  | _, [] => []
  | i, b :: rest =>
    let lineOffset := blockOffset b
    if lineOffset = target then
      i :: highlightLoop target (i + 1) rest
    else if lineOffset ≠ RVA_INVALID ∧ lineOffset > target then
      []
    else
      highlightLoop target (i + 1) rest

/-- `highlightCurrentLine()`: the new extra selections are the lines at the seek offset, the
occurrences of the word under the cursor and the lines at the program counter. -/
def highlightCurrentLine (env : Env) (w : DisassemblyWidget) : DisassemblyWidget :=
  let current := (highlightLoop w.seekOffset 0 w.blocks).map ExtraSelection.currentLine
  let words := (env.findWord w.blocks w.cursor).map ExtraSelection.word
  let PCAddr := env.getProgramCounterValue
  let pc :=
    if PCAddr ≠ RVA_INVALID then (highlightLoop PCAddr 0 w.blocks).map ExtraSelection.pcLine
    else []
  { w with extraSelections := current ++ words ++ pc }

/-- The `while (true)` loop of `updateCursorPosition`, with the scanning cursor in paragraph `i`
and the paragraphs from `i` on as the list.  The signal is disconnected while it runs. -/
def positionLoop (env : Env) (w : DisassemblyWidget) (offset : Nat) :
    Nat → List Block → DisassemblyWidget
  | _, [] => w
  | i, b :: rest =>
    let lineOffset := blockOffset b
    if lineOffset = offset then
      let cursor :=
        if w.cursorLineOffset > 0 then moveDown w.blocks i w.cursorLineOffset.toNat else i
      highlightCurrentLine env { w with cursor := cursor }
    else if lineOffset ≠ RVA_INVALID ∧ lineOffset > offset then
      { w with cursor := 0, extraSelections := [] }
    else
      positionLoop env w offset (i + 1) rest

/-- `updateCursorPosition()`. -/
def updateCursorPosition (env : Env) (w : DisassemblyWidget) : DisassemblyWidget :=
  let offset := w.seekOffset
  let currentLineOffset := readCurrentDisassemblyOffset w
  if currentLineOffset = offset then
    w
  else
    let w1 := connectCursorPositionChanged w true
    let w2 :=
      if offset < w1.topOffset ∨ (offset > w1.bottomOffset ∧ w1.bottomOffset ≠ RVA_INVALID) then
        { w1 with cursor := 0, extraSelections := [] }
      else
        let currentCursorOffset := readCurrentDisassemblyOffset w1
        let originalCursor := w1.cursor
        let w3 := positionLoop env w1 offset 0 w1.blocks
        if currentCursorOffset = offset then { w3 with cursor := originalCursor } else w3
    connectCursorPositionChanged w2 false

/-- `mDisasTextEdit->clear()`: one empty paragraph, the cursor in it, no extra selections. -/
def clear (w : DisassemblyWidget) : DisassemblyWidget :=
  { w with blocks := [none], cursor := 0, extraSelections := [] }

/-- `mDisasTextEdit->document()->clear()`: one empty paragraph; every cursor of the document
(the text cursor of the edit, the cursors of the extra selections) is put at its start. -/
def documentClear (w : DisassemblyWidget) : DisassemblyWidget :=
  { w with blocks := [none], cursor := 0,
           extraSelections := w.extraSelections.map (ExtraSelection.mapBlock fun _ => 0) }

/-- A cursor of the document that stands at or after paragraph `c` when a paragraph is inserted
after `c` at the position of the inserting cursor: it moves one paragraph down. -/
def shiftAfter (c : Nat) (b : Nat) : Nat := if c ≤ b then b + 1 else b

/-- One round of the rendering loop of `refreshDisasm` with the inserting cursor in paragraph
`c`: `insertHtml(line.text)`, `cursor.block().setUserData(..)`, `cursor.insertBlock()`. -/
def insertLine (w : DisassemblyWidget) (c : Nat) (line : DisassemblyLine) : DisassemblyWidget :=
  let withData := w.blocks.set c (some line)
  { w with blocks := withData.take (c + 1) ++ none :: withData.drop (c + 1),
           cursor := shiftAfter c w.cursor,
           extraSelections := w.extraSelections.map (ExtraSelection.mapBlock (shiftAfter c)) }

/-- The loop `for (const DisassemblyLine &line : lines)` of `refreshDisasm` with its `break`. -/
def renderLoop (topOffset : Nat) : List DisassemblyLine → Nat → DisassemblyWidget →
    DisassemblyWidget
  | [], _, w => w
  | line :: rest, c, w =>
    if line.offset < topOffset then
      w
    else
      renderLoop topOffset rest (c + 1) (insertLine w c line)

/-- The assignment of `bottomOffset` in `refreshDisasm`. -/
def computeBottomOffset (w : DisassemblyWidget) : DisassemblyWidget :=
  if !w.lines.isEmpty then
    let index := (min (w.lines.length : Int) w.maxLines - 1).toNat
    let bottomOffset := (w.lines.getD index default).offset
    if bottomOffset < w.topOffset then
      { w with bottomOffset := RVA_MAX }
    else
      { w with bottomOffset := bottomOffset }
  else
    { w with bottomOffset := w.topOffset }

/-- The block "remove additional lines" of `refreshDisasm`: `tc` goes to the start, `maxLines - 1`
paragraphs down and to the end of that paragraph; everything from there to the end of the
document is removed.  Cursors standing in the removed part end in paragraph `tc`. -/
def removeAdditionalLines (w : DisassemblyWidget) : DisassemblyWidget :=
  let tc := moveDown w.blocks 0 (w.maxLines - 1).toNat
  { w with blocks := w.blocks.take (tc + 1),
           cursor := min w.cursor tc,
           extraSelections := w.extraSelections.map (ExtraSelection.mapBlock fun b => min b tc) }

/-- The part of `refreshDisasm` from the fetch of the lines to `connectCursorPositionChanged(false)`
(the rendering itself), before the final `updateCursorPosition()`. -/
def render (env : Env) (w : DisassemblyWidget) : DisassemblyWidget :=
  let w1 := { w with lines := env.disassembleLines w.topOffset w.maxLines }
  let w2 := connectCursorPositionChanged w1 true
  let w3 := documentClear w2
  let w4 := renderLoop w3.topOffset w3.lines 0 w3
  let w5 := computeBottomOffset w4
  let w6 := removeAdditionalLines w5
  connectCursorPositionChanged w6 false

/-- `refreshDisasm(offset)`; the call without argument passes `RVA_INVALID`. -/
def refreshDisasm (env : Env) (w : DisassemblyWidget) (offset : Nat) : DisassemblyWidget :=
  if !env.attemptRefresh (if offset = RVA_INVALID then none else some offset) then
    w
  else
    let w1 := if offset ≠ RVA_INVALID then { w with topOffset := offset } else w
    if w1.topOffset = RVA_INVALID then
      w1
    else if w1.maxLines ≤ 0 then
      connectCursorPositionChanged (clear (connectCursorPositionChanged w1 true)) false
    else
      updateCursorPosition env (render env w1)

/-- `on_seekChanged(offset)`; `mCtxMenu->setOffset(offset)` leaves the widget as it is. -/
def on_seekChanged (env : Env) (w : DisassemblyWidget) (offset : Nat) : DisassemblyWidget :=
  let w1 := if !w.seekFromCursor then { w with cursorLineOffset := 0 } else w
  if w1.topOffset ≠ RVA_INVALID ∧ offset ≥ w1.topOffset ∧ offset ≤ w1.bottomOffset then
    updateCursorPosition env w1
  else
    refreshDisasm env w1 offset

/-- Modelled from the spec: `CutterSeekable` is not part of the sources.  `seekable->seek(offset)`
makes `offset` the offset of the seekable and reports the seek to the widget, which reacts in
`on_seekChanged` before `seek` returns. -/
def seek (env : Env) (w : DisassemblyWidget) (offset : Nat) : DisassemblyWidget :=
  on_seekChanged env { w with seekOffset := offset } offset

/-- The `while (c.blockNumber() > 0)` loop of `cursorPositionChanged` with `c` in paragraph
`c`: the number of times `cursorLineOffset++` runs. -/
def previousBlockLoop (blocks : List Block) (offset : Nat) : Nat → Nat
  | 0 => 0
  | c + 1 =>
    if readDisassemblyOffset blocks c ≠ offset then 0
    else previousBlockLoop blocks offset c + 1

/-- `cursorPositionChanged()`; the calls on `mCtxMenu` leave the widget as it is. -/
def cursorPositionChanged (env : Env) (w : DisassemblyWidget) : DisassemblyWidget :=
  let offset := readCurrentDisassemblyOffset w
  let w1 := { w with cursorLineOffset := (previousBlockLoop w.blocks offset w.cursor : Nat) }
  let w2 := { w1 with seekFromCursor := true }
  let w3 := seek env w2 offset
  let w4 := { w3 with seekFromCursor := false }
  highlightCurrentLine env w4

/-- The address at which `scrollInstructions(count)` calls `refreshDisasm`, for `count ≠ 0`. -/
def scrollInstructionsOffset (env : Env) (w : DisassemblyWidget) (count : Int) : Nat :=
  if count > 0 then
    let offset := env.nextOpAddr w.topOffset count
    if offset < w.topOffset then RVA_MAX else offset
  else
    let offset := env.prevOpAddr w.topOffset (-count)
    if offset > w.topOffset then 0 else offset

/-- `scrollInstructions(count)`. -/
def scrollInstructions (env : Env) (w : DisassemblyWidget) (count : Int) : DisassemblyWidget :=
  if count = 0 then
    w
  else
    refreshDisasm env w (scrollInstructionsOffset env w count)

/-- `updateMaxLines()`, where `currentMaxLines` is what `qhelpers::getMaxFullyDisplayedLines`
measures; the second component is the returned flag. -/
def updateMaxLines (env : Env) (w : DisassemblyWidget) (currentMaxLines : Int) :
    DisassemblyWidget × Bool :=
  if currentMaxLines ≠ w.maxLines then
    (refreshDisasm env { w with maxLines := currentMaxLines } RVA_INVALID, true)
  else
    (w, false)

/-- What goes wrong in the model of `moveCursorRelative`: a read of the vector outside its
bounds, or a loop that is still running when the fuel of the model is used up. -/
inductive Fault where
  | outOfRange
  | outOfFuel
  deriving DecidableEq, Repr

/-- `lines[i]` on the `QVector` of the page-up correction, with an `int` index. -/
def vectorAt (lines : List DisassemblyLine) (i : Int) : Except Fault DisassemblyLine :=
  if 0 ≤ i then
    match lines[i.toNat]? with
    | some line => .ok line
    | none => .error .outOfRange
  else
    .error .outOfRange

/-- The loop `for (oldTopLine = lines.length(); oldTopLine > 0; oldTopLine--)` of the page-up
branch, entered with the given value of `oldTopLine`: the value of `oldTopLine` after it. -/
def oldTopLineLoop (lines : List DisassemblyLine) (topOffset : Nat) : Nat → Except Fault Int
  | 0 => .ok 0
  | n + 1 =>
    match vectorAt lines ((n + 1 : Nat) - 1 : Int) with
    | .error e => .error e
    | .ok line =>
      if line.offset < topOffset then .ok ((n + 1 : Nat) : Int)
      else oldTopLineLoop lines topOffset n

/-- The loop `while (lines[overflowLines - 1].offset == lines[overflowLines].offset &&
overflowLines < lines.length() - 1)` of the page-up branch: the value of `overflowLines` after
it.  Both reads are made before the bound is looked at. -/
def skipDuplicatesLoop (lines : List DisassemblyLine) : Nat → Int → Except Fault Int
  | 0, _ => .error .outOfFuel
  | fuel + 1, overflowLines =>
    match vectorAt lines (overflowLines - 1), vectorAt lines overflowLines with
    | .ok a, .ok b =>
      if a.offset = b.offset ∧ overflowLines < (lines.length : Int) - 1 then
        skipDuplicatesLoop lines fuel (overflowLines + 1)
      else
        .ok overflowLines
    | .error e, _ => .error e
    | _, .error e => .error e

/-- The `else` branch of page-up in `moveCursorRelative` (the candidate `offset` is not above
`topOffset`): the address passed on to `refreshDisasm`. -/
def pageUpCorrection (env : Env) (w : DisassemblyWidget) (offset : Nat) : Except Fault Nat :=
  let lines := env.disassembleLines offset w.maxLines
  match oldTopLineLoop lines w.topOffset lines.length with
  | .error e => .error e
  | .ok oldTopLine =>
    let overflowLines := oldTopLine - w.maxLines
    if overflowLines > 0 then
      match skipDuplicatesLoop lines (lines.length + 1) overflowLines with
      | .error e => .error e
      | .ok overflowLines =>
        match vectorAt lines overflowLines with
        | .error e => .error e
        | .ok line => .ok line.offset
    else
      .ok offset

/-- The address at which the `page` branch of `moveCursorRelative(up, true)` calls
`refreshDisasm`. -/
def pageOffset (env : Env) (w : DisassemblyWidget) (up : Bool) : Except Fault Nat :=
  if !up then
    let offset := env.nextOpAddr w.bottomOffset 1
    if offset < w.bottomOffset then .ok RVA_MAX else .ok offset
  else
    let offset := env.prevOpAddr w.topOffset w.maxLines
    if offset > w.topOffset then .ok 0
    else pageUpCorrection env w offset

/-- The `cursorPositionChanged` signal of the text edit: the slot runs when it is connected. -/
def emitCursorPositionChanged (env : Env) (w : DisassemblyWidget) : DisassemblyWidget :=
  if w.connections = 0 then w else cursorPositionChanged env w

/-- `mDisasTextEdit->moveCursor(up ? QTextCursor::Up : QTextCursor::Down)`: one paragraph up or
down when there is one; the signal is emitted when the cursor moved. -/
def moveCursor (env : Env) (w : DisassemblyWidget) (up : Bool) : DisassemblyWidget :=
  if up then
    if w.cursor = 0 then w else emitCursorPositionChanged env { w with cursor := w.cursor - 1 }
  else
    if w.cursor + 1 < w.blocks.length then
      emitCursorPositionChanged env { w with cursor := w.cursor + 1 }
    else w

/-- `moveCursorRelative(up, page)`. -/
def moveCursorRelative (env : Env) (w : DisassemblyWidget) (up page : Bool) :
    Except Fault DisassemblyWidget :=
  if page then
    match pageOffset env w up with
    | .error e => .error e
    | .ok offset => .ok (refreshDisasm env w offset)
  else
    let blockCount := w.blocks.length
    if blockCount < 1 then
      .ok w
    else
      let blockNumber := w.cursor
      let w1 :=
        if blockNumber = blockCount - 1 ∧ !up then scrollInstructions env w 1
        else if blockNumber = 0 ∧ up then scrollInstructions env w (-1)
        else w
      let w2 := moveCursor env w1 up
      let offset := readCurrentDisassemblyOffset w2
      if offset ≠ w2.seekOffset then
        .ok (highlightCurrentLine env (seek env w2 offset))
      else
        .ok w2

/-- The widget when the constructor returns: no window yet, an empty document, the signal
connected once by `setupSignals`; `currentMaxLines` is the capacity measured by the
`updateMaxLines()` of the constructor and `seekOffset` the offset of the new seekable. -/
def constructed (currentMaxLines : Int) (seekOffset : Nat) : DisassemblyWidget :=
  { topOffset := RVA_INVALID, bottomOffset := RVA_INVALID, maxLines := currentMaxLines,
    cursorLineOffset := 0, seekFromCursor := false, lines := [], blocks := [none], cursor := 0,
    extraSelections := [], seekOffset := seekOffset, connections := 1 }

/-- The states the widget reaches from its construction through its slots and handlers, each
run with the collaborators as they are at that moment.  `userCursor` is the toolkit moving the
text cursor to a paragraph on a click and emitting the signal. -/
inductive Reachable : DisassemblyWidget → Prop where
  | constructed (currentMaxLines : Int) (seekOffset : Nat) :
      Reachable (constructed currentMaxLines seekOffset)
  | refreshDisasm {w : DisassemblyWidget} (env : Env) (offset : Nat) :
      Reachable w → Reachable (refreshDisasm env w offset)
  | updateMaxLines {w : DisassemblyWidget} (env : Env) (currentMaxLines : Int) :
      Reachable w → Reachable (updateMaxLines env w currentMaxLines).1
  | scrollInstructions {w : DisassemblyWidget} (env : Env) (count : Int) :
      Reachable w → Reachable (scrollInstructions env w count)
  | seek {w : DisassemblyWidget} (env : Env) (offset : Nat) :
      Reachable w → Reachable (seek env w offset)
  | userCursor {w : DisassemblyWidget} (env : Env) (block : Nat) :
      Reachable w → block < w.blocks.length →
      Reachable (emitCursorPositionChanged env { w with cursor := block })
  | moveCursorRelative {w w' : DisassemblyWidget} (env : Env) (up page : Bool) :
      Reachable w → moveCursorRelative env w up page = .ok w' → Reachable w'

/-- One command given to the `QPainter` of the left panel. -/
inductive PaintCommand where
  | drawLine (x1 y1 x2 y2 : Int)
  | drawConvexPolygon (points : List (Int × Int))
  deriving DecidableEq, Repr

/-- What `DisassemblyLeftPanel::paintEvent` reads from its surroundings. -/
structure PanelEnv where
  /-- The value of `Core()->getOffset()`. -/
  currentOffset : Nat
  /-- The value of `size().rwidth()`. -/
  width : Int
  /-- The value of `size().height()`. -/
  height : Int
  /-- The value of `disas->getFontMetrics()->height()`. -/
  fontHeight : Int

/-- The `QMap<RVA, int> linesPixPosition`: the pixel row stored for an address, if any. -/
abbrev PixMap := Nat → Option Int

/-- The first loop of `paintEvent`: `linesPixPosition[l.offset] = i * lineHeight + tmpBaseOffset`
for the lines in order, starting with index `i`; a later line replaces the entry of an earlier
line of the same address. -/
def precomputeLoop (lineHeight tmpBaseOffset : Int) : List DisassemblyLine → Int → PixMap → PixMap
  | [], _, m => m
  | l :: rest, i, m =>
    precomputeLoop lineHeight tmpBaseOffset rest (i + 1)
      (fun a => if a = l.offset then some (i * lineHeight + tmpBaseOffset) else m a)

/-- The variables that live across the rounds of the drawing loop of `paintEvent`. -/
structure PaintState where
  arrow : List (Int × Int)
  lineOffset : Int
  deriving DecidableEq, Repr

/-- One round of the drawing loop of `paintEvent` for line `l`: the commands it gives to the
painter and the variables after it. -/
def paintLine (penv : PanelEnv) (linesPixPosition : PixMap) (st : PaintState)
    (l : DisassemblyLine) : List PaintCommand × PaintState :=
  if l.arrow = 0 then
    ([], st)
  else
    let rightOffset := penv.width
    let direction : Int := if l.arrow > penv.currentOffset then 1 else -1
    let currentLineYPos := (linesPixPosition l.offset).getD 0
    let found := (linesPixPosition l.arrow).getD (-1)
    let endVisible := !(found == -1)
    let lineFinalHeight :=
      if found = -1 then (if direction = 1 then 0 else penv.height) else found
    let lineOffset := st.lineOffset
    let segments :=
      [PaintCommand.drawLine rightOffset currentLineYPos (rightOffset - lineOffset) currentLineYPos,
       PaintCommand.drawLine (rightOffset - lineOffset) currentLineYPos (rightOffset - lineOffset)
         lineFinalHeight]
    let closing :=
      if endVisible then
        [PaintCommand.drawLine (rightOffset - lineOffset) lineFinalHeight rightOffset
          lineFinalHeight]
      else []
    let arrow :=
      if endVisible then
        [(rightOffset - 3, lineFinalHeight + 3), (rightOffset - 3, lineFinalHeight - 3),
         (rightOffset, lineFinalHeight)]
      else st.arrow
    (segments ++ closing ++ [PaintCommand.drawConvexPolygon arrow],
     { arrow := arrow, lineOffset := lineOffset + 10 })

/-- The drawing loop of `paintEvent`: the commands of each line, in order. -/
def paintLoop (penv : PanelEnv) (linesPixPosition : PixMap) :
    List DisassemblyLine → PaintState → List (DisassemblyLine × List PaintCommand)
  | [], _ => []
  | l :: rest, st =>
    let (commands, st1) := paintLine penv linesPixPosition st l
    (l, commands) :: paintLoop penv linesPixPosition rest st1

/-- `DisassemblyLeftPanel::paintEvent` on the lines of `disas->getLines()`: for every line the
commands given to the painter in its round of the drawing loop. -/
def paintEvent (penv : PanelEnv) (lines : List DisassemblyLine) :
    List (DisassemblyLine × List PaintCommand) :=
  let lineHeight := penv.fontHeight + 1
  let tmpBaseOffset := lineHeight + 5
  let linesPixPosition := precomputeLoop lineHeight tmpBaseOffset lines 0 (fun _ => none)
  paintLoop penv linesPixPosition lines { arrow := [], lineOffset := 10 }

/-! ## Notions used to state the properties, and example inputs -/

/-- The lines attached to the paragraphs of the display, in order. -/
def renderedLines (w : DisassemblyWidget) : List DisassemblyLine := w.blocks.reduceOption

/-- The fetched lines that the rendering loop inserts: those before the first one whose address
is below `topOffset`. -/
def beforeOverflow (topOffset : Nat) (fetched : List DisassemblyLine) : List DisassemblyLine :=
  fetched.takeWhile fun line => !decide (line.offset < topOffset)

/-- The value `computeBottomOffset` assigns, as a function of the fetched lines. -/
def bottomOf (topOffset : Nat) (maxLines : Int) (fetched : List DisassemblyLine) : Nat :=
  if fetched.isEmpty then topOffset
  else
    let b := (fetched.getD (min (fetched.length : Int) maxLines - 1).toNat default).offset
    if b < topOffset then RVA_MAX else b

/-- The refresh `refreshDisasm(offset)` gets to the rendering: `attemptRefresh` lets it
through, the window has a valid top after the assignment of `offset`, and `maxLines` is
positive. -/
def reachesRendering (env : Env) (w : DisassemblyWidget) (offset : Nat) : Prop :=
  env.attemptRefresh (if offset = RVA_INVALID then none else some offset) = true ∧
  (offset ≠ RVA_INVALID ∨ w.topOffset ≠ RVA_INVALID) ∧ 0 < w.maxLines

/-- The value of `topOffset` after the first assignment of `refreshDisasm(offset)`. -/
def requestedTop (w : DisassemblyWidget) (offset : Nat) : Nat :=
  if offset ≠ RVA_INVALID then offset else w.topOffset

/-- A line at address `a` with empty markup and no jump. -/
def lineAt (a : Nat) : DisassemblyLine := { offset := a, text := "", arrow := 0 }

/-- Collaborators for the examples: no refresh is deferred, the disassembler returns `fetched`
whatever it is asked, instructions are one byte long and addresses wrap around at 64 bits, no
program counter, no word match. -/
def envOf (fetched : List DisassemblyLine) : Env :=
  { attemptRefresh := fun _ => true,
    disassembleLines := fun _ _ => fetched,
    nextOpAddr := fun a n => (a + n.toNat) % (RVA_MAX + 1),
    prevOpAddr := fun a n => (a + (RVA_MAX + 1) - n.toNat % (RVA_MAX + 1)) % (RVA_MAX + 1),
    getProgramCounterValue := RVA_INVALID,
    findWord := fun _ _ => [] }

/-- How the scan of `updateCursorPosition` ends: on the first paragraph with the target address
(`found`), on a paragraph with a valid address above the target (`passed`), or at the end of
the document (`atEnd`). -/
inductive ScanOutcome where
  | found (block : Nat)
  | passed
  | atEnd
  deriving DecidableEq, Repr

/-- The outcome of the scan over the paragraphs `l`, the first of which has number `i`. -/
def scanOutcome (offset : Nat) : Nat → List Block → ScanOutcome
  | _, [] => .atEnd
  | i, b :: rest =>
    if blockOffset b = offset then .found i
    else if blockOffset b ≠ RVA_INVALID ∧ blockOffset b > offset then .passed
    else scanOutcome offset (i + 1) rest

/-- Where the cursor settles when the scan has found the target in paragraph `k`. -/
def settle (w : DisassemblyWidget) (k : Nat) : Nat :=
  if w.cursorLineOffset > 0 then moveDown w.blocks k w.cursorLineOffset.toNat else k

/-- The state `updateCursorPosition` leaves when the cursor is not on the target: the signal
connected once, the cursor and the extra selections as the range test and the scan decide. -/
def repositioned (env : Env) (w : DisassemblyWidget) : DisassemblyWidget :=
  if w.seekOffset < w.topOffset ∨ (w.seekOffset > w.bottomOffset ∧ w.bottomOffset ≠ RVA_INVALID)
  then { w with cursor := 0, extraSelections := [], connections := 1 }
  else
    match scanOutcome w.seekOffset 0 w.blocks with
    | .found k =>
      { highlightCurrentLine env { w with cursor := settle w k } with connections := 1 }
    | .passed => { w with cursor := 0, extraSelections := [], connections := 1 }
    | .atEnd => { w with connections := 1 }

/-- The addresses read off the paragraphs of the window are non-decreasing. -/
def nonDecreasing (blocks : List Block) : Prop :=
  (blocks.map blockOffset).Pairwise (· ≤ ·)

/-- The number of paragraphs directly before paragraph `i` that belong to the same run of
paragraphs with the address of paragraph `i`. -/
def runBefore (blocks : List Block) (i : Nat) : Nat :=
  ((blocks.take i).reverse.takeWhile
    fun b => decide (blockOffset b = readDisassemblyOffset blocks i)).length

/-- A loaded window showing lines at the given addresses, from `top` to `bottom`, the cursor in
the first paragraph and the seek offset on `seekOffset`. -/
def windowOf (addrs : List Nat) (top bottom seekOffset : Nat) : DisassemblyWidget :=
  { topOffset := top, bottomOffset := bottom, maxLines := addrs.length,
    cursorLineOffset := 0, seekFromCursor := false, lines := addrs.map lineAt,
    blocks := addrs.map fun a => some (lineAt a), cursor := 0, extraSelections := [],
    seekOffset := seekOffset, connections := 1 }

/-- Collaborators that defer every refresh (the widget is not shown). -/
def deferringEnv : Env :=
  { attemptRefresh := fun _ => false,
    disassembleLines := fun _ _ => [],
    nextOpAddr := fun a n => (a + n.toNat) % (RVA_MAX + 1),
    prevOpAddr := fun a n => (a + (RVA_MAX + 1) - n.toNat % (RVA_MAX + 1)) % (RVA_MAX + 1),
    getProgramCounterValue := RVA_INVALID,
    findWord := fun _ _ => [] }

/-- The seek address `a` lies in the window: `offset >= topOffset && offset <= bottomOffset`. -/
def inWindow (w : DisassemblyWidget) (a : Nat) : Prop :=
  w.topOffset ≤ a ∧ a ≤ w.bottomOffset

/-- The window of the end-to-end scenario: `topOffset = 0x100`, `maxLines = 10`, one-byte lines
at `0x100 .. 0x109`, the cursor in the first paragraph. -/
def scenarioWindow (seekOffset : Nat) : DisassemblyWidget :=
  windowOf [256, 257, 258, 259, 260, 261, 262, 263, 264, 265] 256 265 seekOffset

/-- The address of the fetched line with index `i`. -/
def addressAt (lines : List DisassemblyLine) (i : Nat) : Nat := (lines.getD i default).offset

/-- A panel 100 pixels wide and 200 pixels high with a font height of 10, the current offset at
address 16. -/
def samplePanel : PanelEnv :=
  { currentOffset := 16, width := 100, height := 200, fontHeight := 10 }

/-- As long as no window has been loaded (`topOffset` invalid) the document is empty. -/
def emptyUntilLoaded (w : DisassemblyWidget) : Prop :=
  w.topOffset = RVA_INVALID → w.blocks = [none]

/-- A window loaded with capacity 3 and lines at 16 and 17, then shrunk to capacity 0 while the
refresh was deferred: the two lines are still in the display. -/
def shrunkWhileDeferred : DisassemblyWidget :=
  (updateMaxLines deferringEnv
    (refreshDisasm (envOf [lineAt 16, lineAt 17]) (constructed 3 0) 16) 0).1

/-- Collaborators for the page-up examples: `prevOpAddr` answers `candidate`, the disassembler
returns `fetched` when asked at `candidate` and nothing elsewhere, no refresh is deferred. -/
def envAt (candidate : Nat) (fetched : List DisassemblyLine) : Env :=
  { attemptRefresh := fun _ => true,
    disassembleLines := fun a _ => if a = candidate then fetched else [],
    nextOpAddr := fun a n => (a + n.toNat) % (RVA_MAX + 1),
    prevOpAddr := fun _ _ => candidate,
    getProgramCounterValue := RVA_INVALID,
    findWord := fun _ _ => [] }

/-- A window at the end of the address space: lines at `RVA_MAX - 3` and `RVA_MAX`, the cursor
and a line highlight on the second paragraph, the seek offset on `RVA_MAX - 2`. -/
def windowAtEnd : DisassemblyWidget :=
  { windowOf [RVA_MAX - 3, RVA_MAX] (RVA_MAX - 3) RVA_MAX (RVA_MAX - 2) with
    cursor := 1, extraSelections := [.currentLine 1] }

/-! ## The run of `refreshDisasm` and `updateCursorPosition` with the edits recorded -/

/-- What a programmatic edit of the text edit touches: the content of the document, the text
cursor, or the extra selections. -/
inductive Touched where
  | content
  | cursor
  | selections
  deriving DecidableEq, Repr

/-- A recorded edit of the text edit: what it touched, and the number of connections of the
`cursorPositionChanged` signal at the moment of the edit. -/
structure Edit where
  touched : Touched
  connections : Nat
  deriving DecidableEq, Repr

/-- A widget together with the edits of its text edit recorded so far. -/
abbrev Traced := DisassemblyWidget × List Edit

/-- A call on the text edit or its document that changes the display by `f`: the change is
recorded, for everything it touches, with the connections at that moment. -/
def Traced.edit (t : Traced) (touched : List Touched)
    (f : DisassemblyWidget → DisassemblyWidget) : Traced :=
  (f t.1, t.2 ++ touched.map fun k => { touched := k, connections := t.1.connections })

/-- A statement that changes members of the widget or the connections, not the display. -/
def Traced.step (t : Traced) (f : DisassemblyWidget → DisassemblyWidget) : Traced :=
  (f t.1, t.2)

/-- The `while (true)` loop of `updateCursorPosition`, recording `setTextCursor`,
`highlightCurrentLine`, `moveCursor` and `setExtraSelections`. -/
def tracedPositionLoop (env : Env) (t : Traced) (offset : Nat) : Nat → List Block → Traced
  | _, [] => t
  | i, b :: rest =>
    let lineOffset := blockOffset b
    if lineOffset = offset then
      let cursor :=
        if t.1.cursorLineOffset > 0 then moveDown t.1.blocks i t.1.cursorLineOffset.toNat else i
      (t.edit [.cursor] fun w => { w with cursor := cursor }).edit [.selections]
        (highlightCurrentLine env)
    else if lineOffset ≠ RVA_INVALID ∧ lineOffset > offset then
      (t.edit [.cursor] fun w => { w with cursor := 0 }).edit [.selections]
        fun w => { w with extraSelections := [] }
    else
      tracedPositionLoop env t offset (i + 1) rest

/-- `updateCursorPosition()` with its edits recorded. -/
def tracedUpdateCursorPosition (env : Env) (t : Traced) : Traced :=
  let offset := t.1.seekOffset
  let currentLineOffset := readCurrentDisassemblyOffset t.1
  if currentLineOffset = offset then
    t
  else
    let t1 := t.step fun w => connectCursorPositionChanged w true
    let t2 :=
      if offset < t1.1.topOffset ∨
          (offset > t1.1.bottomOffset ∧ t1.1.bottomOffset ≠ RVA_INVALID) then
        (t1.edit [.cursor] fun w => { w with cursor := 0 }).edit [.selections]
          fun w => { w with extraSelections := [] }
      else
        let currentCursorOffset := readCurrentDisassemblyOffset t1.1
        let originalCursor := t1.1.cursor
        let t3 := tracedPositionLoop env t1 offset 0 t1.1.blocks
        if currentCursorOffset = offset then
          t3.edit [.cursor] fun w => { w with cursor := originalCursor }
        else t3
    t2.step fun w => connectCursorPositionChanged w false

/-- The rendering loop of `refreshDisasm`, recording each round as an edit of the content and
of the cursor that travels with the insertion. -/
def tracedRenderLoop (topOffset : Nat) : List DisassemblyLine → Nat → Traced → Traced
  | [], _, t => t
  | line :: rest, c, t =>
    if line.offset < topOffset then
      t
    else
      tracedRenderLoop topOffset rest (c + 1)
        (t.edit [.content, .cursor] fun w => insertLine w c line)

/-- The rendering part of `refreshDisasm` with its edits recorded. -/
def tracedRender (env : Env) (t : Traced) : Traced :=
  let t1 := t.step fun w => { w with lines := env.disassembleLines w.topOffset w.maxLines }
  let t2 := t1.step fun w => connectCursorPositionChanged w true
  let t3 := t2.edit [.content, .cursor] documentClear
  let t4 := tracedRenderLoop t3.1.topOffset t3.1.lines 0 t3
  let t5 := t4.step computeBottomOffset
  let t6 := t5.edit [.content, .cursor] removeAdditionalLines
  t6.step fun w => connectCursorPositionChanged w false

/-- `refreshDisasm(offset)` with its edits recorded. -/
def tracedRefreshDisasm (env : Env) (t : Traced) (offset : Nat) : Traced :=
  if !env.attemptRefresh (if offset = RVA_INVALID then none else some offset) then
    t
  else
    let t1 := if offset ≠ RVA_INVALID then t.step fun w => { w with topOffset := offset } else t
    if t1.1.topOffset = RVA_INVALID then
      t1
    else if t1.1.maxLines ≤ 0 then
      (((t1.step fun w => connectCursorPositionChanged w true).edit
        [.content, .cursor, .selections] clear).step
        fun w => connectCursorPositionChanged w false)
    else
      tracedUpdateCursorPosition env (tracedRender env t1)

/-- Every recorded edit was made while the signal had no connection. -/
def allDisconnected (log : List Edit) : Prop :=
  ∀ e ∈ log, e.connections = 0

/-! ## Notions for the jump overlay -/

/-- The pixel row that the first loop of `paintEvent` stores for the line with index `i`:
`i * lineHeight + tmpBaseOffset`. -/
def rowOf (penv : PanelEnv) (i : Nat) : Int :=
  (i : Int) * (penv.fontHeight + 1) + (penv.fontHeight + 1 + 5)

/-- The three points of the arrowhead that `paintEvent` builds at pixel row `y`. -/
def arrowhead (penv : PanelEnv) (y : Int) : List (Int × Int) :=
  [(penv.width - 3, y + 3), (penv.width - 3, y - 3), (penv.width, y)]

/-- The column of the connector of the line with index `k`: `rightOffset - lineOffset`, where
`lineOffset` starts at 10 and grows by 10 with every line that has a jump target. -/
def connectorColumn (penv : PanelEnv) (lines : List DisassemblyLine) (k : Nat) : Int :=
  penv.width - (10 + 10 * (((lines.take k).filter fun l => !decide (l.arrow = 0)).length : Int))

/-- The commands that `paintEvent` gives to the painter in the rounds of the first `k` lines. -/
def paintedBefore (penv : PanelEnv) (lines : List DisassemblyLine) (k : Nat) :
    List PaintCommand :=
  (((paintEvent penv lines).take k).map Prod.snd).flatten

/-- The shapes on the panel after the commands, all given with the same pen and no brush: a
polygon without points paints nothing, and a shape painted once more leaves the picture as it
is. -/
def picture (commands : List PaintCommand) : Finset PaintCommand :=
  (commands.filter fun c => !decide (c = PaintCommand.drawConvexPolygon [])).toFinset

/-- Two window lines for the overlay: the line at address 16 jumps to the line at 17, and the
line at 17 jumps to address 999, which no line of the window has. -/
def sampleJumps : List DisassemblyLine :=
  [{ offset := 16, text := "", arrow := 17 }, { offset := 17, text := "", arrow := 999 }]

/-! ## The rendering of `refreshDisasm`: window containment, bottom, invariant -/

theorem positionLoop_frame (env : Env) (w : DisassemblyWidget) (offset : Nat) (l : List Block)
    (i : Nat) :
    (positionLoop env w offset i l).blocks = w.blocks ∧
    (positionLoop env w offset i l).topOffset = w.topOffset ∧
    (positionLoop env w offset i l).bottomOffset = w.bottomOffset ∧
    (positionLoop env w offset i l).maxLines = w.maxLines ∧
    (positionLoop env w offset i l).lines = w.lines ∧
    (positionLoop env w offset i l).cursorLineOffset = w.cursorLineOffset ∧
    (positionLoop env w offset i l).seekFromCursor = w.seekFromCursor ∧
    (positionLoop env w offset i l).seekOffset = w.seekOffset ∧
    (positionLoop env w offset i l).connections = w.connections := by
  induction l generalizing i with
  | nil => simp [positionLoop]
  | cons b rest ih =>
    simp only [positionLoop]
    split_ifs
    · simp [highlightCurrentLine]
    · simp [highlightCurrentLine]
    · simp
    · exact ih (i + 1)

theorem updateCursorPosition_frame (env : Env) (w : DisassemblyWidget) :
    (updateCursorPosition env w).blocks = w.blocks ∧
    (updateCursorPosition env w).topOffset = w.topOffset ∧
    (updateCursorPosition env w).bottomOffset = w.bottomOffset ∧
    (updateCursorPosition env w).maxLines = w.maxLines ∧
    (updateCursorPosition env w).lines = w.lines ∧
    (updateCursorPosition env w).cursorLineOffset = w.cursorLineOffset ∧
    (updateCursorPosition env w).seekFromCursor = w.seekFromCursor ∧
    (updateCursorPosition env w).seekOffset = w.seekOffset := by
  unfold updateCursorPosition
  simp only
  split_ifs <;>
    simp [connectCursorPositionChanged, positionLoop_frame]

theorem reduceOption_map_some {α : Type} (R : List α) : (R.map some).reduceOption = R := by
  induction R with
  | nil => rfl
  | cons a t ih => simp [List.reduceOption_cons_of_some, ih]

theorem insertLine_blocks (w : DisassemblyWidget) (pre : List Block) (line : DisassemblyLine)
    (hb : w.blocks = pre ++ [none]) :
    (insertLine w pre.length line).blocks = (pre ++ [some line]) ++ [none] := by
  simp [insertLine, hb, List.set_append_right, List.take_append_eq_append_take,
    List.drop_append_eq_append_drop, List.take_of_length_le, List.drop_of_length_le]

theorem renderLoop_blocks (topOffset : Nat) (ls : List DisassemblyLine) (pre : List Block)
    (w : DisassemblyWidget) (hb : w.blocks = pre ++ [none]) :
    (renderLoop topOffset ls pre.length w).blocks
      = pre ++ (beforeOverflow topOffset ls).map some ++ [none] := by
  induction ls generalizing pre w with
  | nil => simp [renderLoop, beforeOverflow, hb]
  | cons line rest ih =>
    simp only [renderLoop, beforeOverflow]
    by_cases h : line.offset < topOffset
    · simp [h, hb, List.takeWhile_cons]
    · have := ih (pre ++ [some line]) (insertLine w pre.length line) (insertLine_blocks w pre line hb)
      simp only [List.length_append, List.length_singleton] at this
      simp [h, this, List.takeWhile_cons, beforeOverflow]

theorem renderLoop_frame (topOffset : Nat) (ls : List DisassemblyLine) (c : Nat)
    (w : DisassemblyWidget) :
    (renderLoop topOffset ls c w).topOffset = w.topOffset ∧
    (renderLoop topOffset ls c w).bottomOffset = w.bottomOffset ∧
    (renderLoop topOffset ls c w).maxLines = w.maxLines ∧
    (renderLoop topOffset ls c w).lines = w.lines ∧
    (renderLoop topOffset ls c w).cursorLineOffset = w.cursorLineOffset ∧
    (renderLoop topOffset ls c w).seekFromCursor = w.seekFromCursor ∧
    (renderLoop topOffset ls c w).seekOffset = w.seekOffset ∧
    (renderLoop topOffset ls c w).connections = w.connections := by
  induction ls generalizing c w with
  | nil => simp [renderLoop]
  | cons line rest ih =>
    simp only [renderLoop]
    split_ifs
    · simp
    · simpa [insertLine] using ih (c + 1) (insertLine w c line)

theorem computeBottomOffset_frame (w : DisassemblyWidget) :
    (computeBottomOffset w).blocks = w.blocks ∧
    (computeBottomOffset w).topOffset = w.topOffset ∧
    (computeBottomOffset w).bottomOffset = bottomOf w.topOffset w.maxLines w.lines ∧
    (computeBottomOffset w).maxLines = w.maxLines ∧
    (computeBottomOffset w).lines = w.lines ∧
    (computeBottomOffset w).cursorLineOffset = w.cursorLineOffset ∧
    (computeBottomOffset w).seekFromCursor = w.seekFromCursor ∧
    (computeBottomOffset w).seekOffset = w.seekOffset ∧
    (computeBottomOffset w).connections = w.connections := by
  unfold computeBottomOffset bottomOf
  by_cases h1 : w.lines.isEmpty = true
  · simp [h1]
  · by_cases h2 : (w.lines.getD (min (w.lines.length : Int) w.maxLines - 1).toNat default).offset
        < w.topOffset
    · simp only [h1, h2]; simp
    · simp only [h1, h2]; simp

theorem reduceOption_take_rendered (R : List DisassemblyLine) (n : Nat) :
    (List.take n (R.map some ++ [none])).reduceOption = R.take n := by
  rcases Nat.lt_or_ge R.length n with h | h
  · rw [List.take_of_length_le (by simp; omega), List.take_of_length_le (by omega)]
    simp [List.reduceOption_append, reduceOption_map_some]
  · rw [List.take_append_of_le_length (by simpa using h), ← List.map_take]
    exact reduceOption_map_some _

theorem removeAdditionalLines_frame (w : DisassemblyWidget) :
    (removeAdditionalLines w).blocks
      = w.blocks.take (moveDown w.blocks 0 (w.maxLines - 1).toNat + 1) ∧
    (removeAdditionalLines w).topOffset = w.topOffset ∧
    (removeAdditionalLines w).bottomOffset = w.bottomOffset ∧
    (removeAdditionalLines w).maxLines = w.maxLines ∧
    (removeAdditionalLines w).lines = w.lines ∧
    (removeAdditionalLines w).cursorLineOffset = w.cursorLineOffset ∧
    (removeAdditionalLines w).seekFromCursor = w.seekFromCursor ∧
    (removeAdditionalLines w).seekOffset = w.seekOffset ∧
    (removeAdditionalLines w).connections = w.connections :=
  ⟨rfl, rfl, rfl, rfl, rfl, rfl, rfl, rfl, rfl⟩

theorem renderTail_spec (b : DisassemblyWidget) (hb : b.blocks = [none]) :
    (removeAdditionalLines (computeBottomOffset (renderLoop b.topOffset b.lines 0 b))).blocks
      = List.take (moveDown ((beforeOverflow b.topOffset b.lines).map some ++ [none]) 0
            (b.maxLines - 1).toNat + 1)
          ((beforeOverflow b.topOffset b.lines).map some ++ [none]) ∧
    (removeAdditionalLines (computeBottomOffset (renderLoop b.topOffset b.lines 0 b))).topOffset
      = b.topOffset ∧
    (removeAdditionalLines (computeBottomOffset (renderLoop b.topOffset b.lines 0 b))).bottomOffset
      = bottomOf b.topOffset b.maxLines b.lines ∧
    (removeAdditionalLines (computeBottomOffset (renderLoop b.topOffset b.lines 0 b))).maxLines
      = b.maxLines ∧
    (removeAdditionalLines (computeBottomOffset (renderLoop b.topOffset b.lines 0 b))).lines
      = b.lines ∧
    (removeAdditionalLines
        (computeBottomOffset (renderLoop b.topOffset b.lines 0 b))).cursorLineOffset
      = b.cursorLineOffset ∧
    (removeAdditionalLines
        (computeBottomOffset (renderLoop b.topOffset b.lines 0 b))).seekFromCursor
      = b.seekFromCursor ∧
    (removeAdditionalLines (computeBottomOffset (renderLoop b.topOffset b.lines 0 b))).seekOffset
      = b.seekOffset ∧
    (removeAdditionalLines (computeBottomOffset (renderLoop b.topOffset b.lines 0 b))).connections
      = b.connections := by
  have hbl := renderLoop_blocks b.topOffset b.lines [] b (by simpa using hb)
  simp only [List.length_nil, List.nil_append] at hbl
  obtain ⟨h1, h2, h3, h4, h5, h6, h7, h8⟩ := renderLoop_frame b.topOffset b.lines 0 b
  generalize renderLoop b.topOffset b.lines 0 b = r at *
  obtain ⟨c1, c2, c3, c4, c5, c6, c7, c8, c9⟩ := computeBottomOffset_frame r
  generalize computeBottomOffset r = q at *
  obtain ⟨d1, d2, d3, d4, d5, d6, d7, d8, d9⟩ := removeAdditionalLines_frame q
  generalize removeAdditionalLines q = p at *
  refine ⟨?_, ?_, ?_, ?_, ?_, ?_, ?_, ?_, ?_⟩
  · rw [d1, c1, c4, h3, hbl]
  · rw [d2, c2, h1]
  · rw [d3, c3, h1, h3, h4]
  · rw [d4, c4, h3]
  · rw [d5, c5, h4]
  · rw [d6, c6, h5]
  · rw [d7, c7, h6]
  · rw [d8, c8, h7]
  · rw [d9, c9, h8]

theorem render_spec (env : Env) (w : DisassemblyWidget) :
    (render env w).blocks
      = List.take (moveDown ((beforeOverflow w.topOffset
            (env.disassembleLines w.topOffset w.maxLines)).map some ++ [none]) 0
            (w.maxLines - 1).toNat + 1)
          ((beforeOverflow w.topOffset (env.disassembleLines w.topOffset w.maxLines)).map some
            ++ [none]) ∧
    (render env w).topOffset = w.topOffset ∧
    (render env w).bottomOffset
      = bottomOf w.topOffset w.maxLines (env.disassembleLines w.topOffset w.maxLines) ∧
    (render env w).maxLines = w.maxLines ∧
    (render env w).lines = env.disassembleLines w.topOffset w.maxLines ∧
    (render env w).cursorLineOffset = w.cursorLineOffset ∧
    (render env w).seekFromCursor = w.seekFromCursor ∧
    (render env w).seekOffset = w.seekOffset ∧
    (render env w).connections = 1 := by
  obtain ⟨t1, t2, t3, t4, t5, t6, t7, t8, t9⟩ := renderTail_spec
    (documentClear (connectCursorPositionChanged
      { w with lines := env.disassembleLines w.topOffset w.maxLines } true)) rfl
  refine ⟨t1, t2, t3, t4, t5, t6, t7, t8, ?_⟩
  show _ + 1 = 1
  rw [t9]; rfl

theorem refreshDisasm_rendering (env : Env) (w : DisassemblyWidget) (offset : Nat)
    (h : reachesRendering env w offset) :
    refreshDisasm env w offset
      = updateCursorPosition env (render env { w with topOffset := requestedTop w offset }) := by
  obtain ⟨ha, ht, hm⟩ := h
  unfold refreshDisasm requestedTop
  by_cases ho : offset = RVA_INVALID
  · have ht' : w.topOffset ≠ RVA_INVALID := by
      rcases ht with ht | ht
      · exact absurd ho ht
      · exact ht
    subst ho
    simp only [if_true] at ha
    simp [ha, ht', not_le.mpr hm]
  · simp only [if_neg ho] at ha
    simp [ha, ho, not_le.mpr hm]

theorem refreshDisasm_rendering_spec (env : Env) (w : DisassemblyWidget) (offset : Nat)
    (h : reachesRendering env w offset) :
    (refreshDisasm env w offset).topOffset = requestedTop w offset ∧
    (refreshDisasm env w offset).blocks
      = List.take (moveDown ((beforeOverflow (requestedTop w offset)
            (env.disassembleLines (requestedTop w offset) w.maxLines)).map some ++ [none]) 0
            (w.maxLines - 1).toNat + 1)
          ((beforeOverflow (requestedTop w offset)
            (env.disassembleLines (requestedTop w offset) w.maxLines)).map some ++ [none]) ∧
    (refreshDisasm env w offset).bottomOffset
      = bottomOf (requestedTop w offset) w.maxLines
          (env.disassembleLines (requestedTop w offset) w.maxLines) ∧
    (refreshDisasm env w offset).lines
      = env.disassembleLines (requestedTop w offset) w.maxLines ∧
    (refreshDisasm env w offset).maxLines = w.maxLines := by
  rw [refreshDisasm_rendering env w offset h]
  obtain ⟨u1, u2, u3, u4, u5, -⟩ :=
    updateCursorPosition_frame env (render env { w with topOffset := requestedTop w offset })
  obtain ⟨r1, r2, r3, r4, r5, -⟩ := render_spec env { w with topOffset := requestedTop w offset }
  exact ⟨u2.trans r2, u1.trans r1, u3.trans r3, u5.trans r5, u4.trans r4⟩

theorem take_window (R : List DisassemblyLine) (N : Nat) (hN : 1 ≤ N) :
    List.take (moveDown (R.map some ++ [none]) 0 (N - 1) + 1) (R.map some ++ [none])
      = List.take N (R.map some ++ [none]) := by
  unfold moveDown
  simp only [List.length_append, List.length_map, List.length_singleton, Nat.add_sub_cancel,
    Nat.zero_add]
  rcases Nat.lt_or_ge R.length N with h | h
  · rw [List.take_of_length_le (by simp; omega), List.take_of_length_le (by simp; omega)]
  · congr 1
    omega

/-- C1. A refresh that reaches rendering with `maxLines = N ≥ 1` leaves at most `N` paragraphs
in the display, every rendered line has an address `≥ topOffset`, and the rendered lines are
the fetched lines before the first one whose address is below `topOffset`, cut to the first `N`,
whatever list the disassembler returns. -/
theorem refreshDisasm_window_containment (env : Env) (w : DisassemblyWidget) (offset N : Nat)
    (hRender : reachesRendering env w offset) (hN : w.maxLines = (N : Int)) (hPos : 1 ≤ N) :
    (refreshDisasm env w offset).blocks.length ≤ N ∧
    (∀ line ∈ renderedLines (refreshDisasm env w offset),
      (refreshDisasm env w offset).topOffset ≤ line.offset) ∧
    renderedLines (refreshDisasm env w offset)
      = ((env.disassembleLines (refreshDisasm env w offset).topOffset (N : Int)).takeWhile
          fun line => !decide (line.offset < (refreshDisasm env w offset).topOffset)).take N := by
  obtain ⟨hT, hB, -, -, -⟩ := refreshDisasm_rendering_spec env w offset hRender
  have hN1 : (w.maxLines - 1).toNat = N - 1 := by rw [hN]; omega
  rw [hN1, take_window _ N hPos] at hB
  have hR : renderedLines (refreshDisasm env w offset)
      = (beforeOverflow (requestedTop w offset)
          (env.disassembleLines (requestedTop w offset) w.maxLines)).take N := by
    unfold renderedLines
    rw [hB, reduceOption_take_rendered]
  refine ⟨?_, ?_, ?_⟩
  · rw [hB]; simp
  · intro line hl
    rw [hR] at hl
    have hmem := List.mem_of_mem_take hl
    have := List.mem_takeWhile_imp hmem
    rw [hT]
    simpa using this
  · rw [hR, hT, hN]; rfl

/-- C1 at fetched addresses 16, 17, 18, 3, 19 with `maxLines = 2`: the lines at 16 and 17 are
rendered. -/
theorem refreshDisasm_window_containment_witness :
    reachesRendering (envOf [lineAt 16, lineAt 17, lineAt 18, lineAt 3, lineAt 19])
      (constructed 2 0) 16 ∧
    (constructed 2 0).maxLines = ((2 : Nat) : Int) ∧ 1 ≤ 2 ∧
    renderedLines (refreshDisasm (envOf [lineAt 16, lineAt 17, lineAt 18, lineAt 3, lineAt 19])
      (constructed 2 0) 16) = [lineAt 16, lineAt 17] :=
  ⟨⟨rfl, Or.inl (by decide), by decide⟩, rfl, by decide,
    ((refreshDisasm_window_containment (envOf [lineAt 16, lineAt 17, lineAt 18, lineAt 3, lineAt 19])
      (constructed 2 0) 16 2 ⟨rfl, Or.inl (by decide), by decide⟩ rfl (by decide)).2.2).trans
      (by decide)⟩

theorem getLast_take_eq_getD (fetched : List DisassemblyLine) (maxLines : Int)
    (hm : 0 < maxLines) (last : DisassemblyLine)
    (h : (fetched.take maxLines.toNat).getLast? = some last) :
    fetched.getD (min (fetched.length : Int) maxLines - 1).toNat default = last := by
  obtain ⟨N, rfl⟩ : ∃ N : Nat, maxLines = (N : Int) := ⟨maxLines.toNat, by omega⟩
  have hN : 1 ≤ N := by omega
  simp only [Int.toNat_ofNat] at h
  rw [List.getLast?_eq_getElem?, List.getElem?_take] at h
  have hidx : (min (fetched.length : Int) (N : Int) - 1).toNat = min N fetched.length - 1 := by
    omega
  rw [hidx, List.getD_eq_getElem?_getD]
  simp only [List.length_take] at h
  split_ifs at h with hlt
  rw [h]; rfl

theorem bottomOf_of_getLast (topOffset : Nat) (fetched : List DisassemblyLine) (maxLines : Int)
    (hm : 0 < maxLines) (last : DisassemblyLine)
    (h : (fetched.take maxLines.toNat).getLast? = some last) :
    bottomOf topOffset maxLines fetched
      = if last.offset < topOffset then RVA_MAX else last.offset := by
  have hne : fetched ≠ [] := by
    rintro rfl
    simp at h
  unfold bottomOf
  rw [getLast_take_eq_getD fetched maxLines hm last h]
  simp [hne]

theorem beforeOverflow_eq_self (topOffset : Nat) (ls : List DisassemblyLine)
    (h : ∀ line ∈ ls, topOffset ≤ line.offset) : beforeOverflow topOffset ls = ls := by
  unfold beforeOverflow
  rw [List.takeWhile_eq_self_iff]
  intro line hl
  simpa using h line hl

theorem take_beforeOverflow (topOffset : Nat) (ls : List DisassemblyLine) (n : Nat) :
    (beforeOverflow topOffset ls).take n = beforeOverflow topOffset (ls.take n) := by
  unfold beforeOverflow
  induction ls generalizing n with
  | nil => simp
  | cons a t ih =>
    cases n with
    | zero => simp
    | succ n =>
      by_cases ha : a.offset < topOffset
      · simp [List.takeWhile_cons, ha]
      · simp [List.takeWhile_cons, ha, ih]

theorem renderedLines_refreshDisasm (env : Env) (w : DisassemblyWidget) (offset : Nat)
    (hRender : reachesRendering env w offset) :
    renderedLines (refreshDisasm env w offset)
      = beforeOverflow (requestedTop w offset)
          ((env.disassembleLines (requestedTop w offset) w.maxLines).take w.maxLines.toNat) := by
  obtain ⟨-, hB, -, -, -⟩ := refreshDisasm_rendering_spec env w offset hRender
  have hm := hRender.2.2
  have hN1 : (w.maxLines - 1).toNat = w.maxLines.toNat - 1 := by omega
  rw [hN1, take_window _ w.maxLines.toNat (by omega)] at hB
  unfold renderedLines
  rw [hB, reduceOption_take_rendered, take_beforeOverflow]

/-- C2 (as amended). After a refresh that reaches rendering: when no line was fetched,
`bottomOffset = topOffset`; otherwise `bottomOffset` is the address of the last of the first
`maxLines` fetched lines, rendered or not, and the maximum representable address when that
address is below `topOffset`.  When each of the first `maxLines` fetched lines has an address
`≥ topOffset`, that line is the last rendered line. -/
theorem refreshDisasm_bottomOffset (env : Env) (w : DisassemblyWidget) (offset : Nat)
    (hRender : reachesRendering env w offset) :
    (env.disassembleLines (refreshDisasm env w offset).topOffset w.maxLines = [] →
      (refreshDisasm env w offset).bottomOffset = (refreshDisasm env w offset).topOffset) ∧
    (∀ last,
      ((env.disassembleLines (refreshDisasm env w offset).topOffset w.maxLines).take
        w.maxLines.toNat).getLast? = some last →
      (refreshDisasm env w offset).bottomOffset
        = if last.offset < (refreshDisasm env w offset).topOffset then RVA_MAX
          else last.offset) ∧
    ((∀ line ∈ (env.disassembleLines (refreshDisasm env w offset).topOffset w.maxLines).take
        w.maxLines.toNat, (refreshDisasm env w offset).topOffset ≤ line.offset) →
      ∀ last, (renderedLines (refreshDisasm env w offset)).getLast? = some last →
        (refreshDisasm env w offset).bottomOffset = last.offset) := by
  obtain ⟨hT, -, hBot, -, -⟩ := refreshDisasm_rendering_spec env w offset hRender
  have hR := renderedLines_refreshDisasm env w offset hRender
  have hm := hRender.2.2
  rw [hT, hBot, hR]
  refine ⟨?_, ?_, ?_⟩
  · intro he
    simp [bottomOf, he]
  · intro last hl
    exact bottomOf_of_getLast _ _ _ hm last hl
  · intro hall last hl
    rw [beforeOverflow_eq_self _ _ hall] at hl
    rw [bottomOf_of_getLast _ _ _ hm last hl]
    have := hall last (List.mem_of_getLast?_eq_some hl)
    simp [not_lt.mpr this]

/-- C2 (as amended) at fetched addresses 32, 33, 7 with `maxLines = 3`: the last fetched line is
below `topOffset = 32`, so `bottomOffset` is the maximum address. -/
theorem refreshDisasm_bottomOffset_witness :
    reachesRendering (envOf [lineAt 32, lineAt 33, lineAt 7]) (constructed 3 0) 32 ∧
    (refreshDisasm (envOf [lineAt 32, lineAt 33, lineAt 7]) (constructed 3 0) 32).bottomOffset
      = RVA_MAX :=
  ⟨⟨rfl, Or.inl (by decide), by decide⟩,
    ((refreshDisasm_bottomOffset (envOf [lineAt 32, lineAt 33, lineAt 7]) (constructed 3 0) 32
      ⟨rfl, Or.inl (by decide), by decide⟩).2.1 (lineAt 7) (by decide)).trans (by decide)⟩

/-- C2 fails as stated.  With the single fetched line below `topOffset` nothing is rendered and
`bottomOffset` is the maximum address, not `topOffset`.  With fetched addresses 16, 17, 3 (the
addresses wrap after 17) the rendered lines are those at 16 and 17, the last rendered address 17
is not below `topOffset = 16`, and `bottomOffset` is the maximum address, not 17. -/
theorem refreshDisasm_bottomOffset_not_last_rendered :
    (reachesRendering (envOf [lineAt 5]) (constructed 1 0) 16 ∧
      renderedLines (refreshDisasm (envOf [lineAt 5]) (constructed 1 0) 16) = [] ∧
      (refreshDisasm (envOf [lineAt 5]) (constructed 1 0) 16).topOffset = 16 ∧
      (refreshDisasm (envOf [lineAt 5]) (constructed 1 0) 16).bottomOffset = RVA_MAX) ∧
    (reachesRendering (envOf [lineAt 16, lineAt 17, lineAt 3]) (constructed 3 0) 16 ∧
      renderedLines (refreshDisasm (envOf [lineAt 16, lineAt 17, lineAt 3]) (constructed 3 0) 16)
        = [lineAt 16, lineAt 17] ∧
      (refreshDisasm (envOf [lineAt 16, lineAt 17, lineAt 3]) (constructed 3 0) 16).topOffset
        = 16 ∧
      (refreshDisasm (envOf [lineAt 16, lineAt 17, lineAt 3]) (constructed 3 0) 16).bottomOffset
        = RVA_MAX) :=
  ⟨⟨⟨rfl, Or.inl (by decide), by decide⟩, by decide, by decide, by decide⟩,
    ⟨⟨rfl, Or.inl (by decide), by decide⟩, by decide, by decide, by decide⟩⟩

theorem le_getLast_of_pairwise (l : List DisassemblyLine)
    (hp : l.Pairwise fun a b => a.offset ≤ b.offset) (last : DisassemblyLine)
    (hl : l.getLast? = some last) : ∀ line ∈ l, line.offset ≤ last.offset := by
  intro line hmem
  have hne : l ≠ [] := List.ne_nil_of_mem hmem
  have hlast : l.getLast hne = last := by
    rw [List.getLast?_eq_getLast l hne] at hl
    exact Option.some.inj hl
  have hsplit := List.dropLast_append_getLast hne
  rw [hlast] at hsplit
  rw [← hsplit] at hmem hp
  rcases List.mem_append.mp hmem with h | h
  · exact (List.pairwise_append.mp hp).2.2 line h last (by simp)
  · simp at h
    rw [h]

theorem beforeOverflow_subset (topOffset : Nat) (ls : List DisassemblyLine) :
    ∀ line ∈ beforeOverflow topOffset ls, line ∈ ls ∧ topOffset ≤ line.offset := by
  intro line hl
  unfold beforeOverflow at hl
  refine ⟨(List.takeWhile_sublist _).subset hl, ?_⟩
  simpa using List.mem_takeWhile_imp hl

/-- C9 (as amended). After a refresh that reaches rendering every rendered line has an address
`≥ topOffset`, whatever the fetched lines; and every rendered address is `≤ bottomOffset` when
the rendered addresses are non-decreasing, the fetched addresses are 64-bit, and the last of
the first `maxLines` fetched lines is the last rendered line or lies below `topOffset`. -/
theorem refreshDisasm_window_invariant (env : Env) (w : DisassemblyWidget) (offset : Nat)
    (hRender : reachesRendering env w offset) :
    (∀ line ∈ renderedLines (refreshDisasm env w offset),
      (refreshDisasm env w offset).topOffset ≤ line.offset) ∧
    ((renderedLines (refreshDisasm env w offset)).Pairwise (fun a b => a.offset ≤ b.offset) →
      (∀ line ∈ env.disassembleLines (refreshDisasm env w offset).topOffset w.maxLines,
        line.offset ≤ RVA_MAX) →
      (∀ last,
        ((env.disassembleLines (refreshDisasm env w offset).topOffset w.maxLines).take
          w.maxLines.toNat).getLast? = some last →
        last.offset < (refreshDisasm env w offset).topOffset ∨
          (renderedLines (refreshDisasm env w offset)).getLast? = some last) →
      ∀ line ∈ renderedLines (refreshDisasm env w offset),
        line.offset ≤ (refreshDisasm env w offset).bottomOffset) := by
  obtain ⟨hT, -, hBot, -, -⟩ := refreshDisasm_rendering_spec env w offset hRender
  have hR := renderedLines_refreshDisasm env w offset hRender
  have hm := hRender.2.2
  rw [hT, hBot, hR]
  refine ⟨fun line hl => (beforeOverflow_subset _ _ line hl).2, ?_⟩
  intro hp h64 hlast line hl
  obtain ⟨hmemF, htop⟩ := beforeOverflow_subset _ _ line hl
  have hne : (env.disassembleLines (requestedTop w offset) w.maxLines).take w.maxLines.toNat
      ≠ [] := List.ne_nil_of_mem hmemF
  obtain ⟨last, hl?⟩ : ∃ last,
      ((env.disassembleLines (requestedTop w offset) w.maxLines).take
        w.maxLines.toNat).getLast? = some last :=
    ⟨_, List.getLast?_eq_getLast _ hne⟩
  rw [bottomOf_of_getLast _ _ _ hm last hl?]
  rcases hlast last hl? with hlt | hrl
  · rw [if_pos hlt]
    exact h64 line (List.mem_of_mem_take hmemF)
  · have hge := (beforeOverflow_subset _ _ last (List.mem_of_getLast?_eq_some hrl)).2
    rw [if_neg (not_lt.mpr hge)]
    exact le_getLast_of_pairwise _ hp last hrl line hl

/-- C9 (as amended) at fetched addresses 16, 17, 17, 3 with `maxLines = 4`. -/
theorem refreshDisasm_window_invariant_witness :
    reachesRendering (envOf [lineAt 16, lineAt 17, lineAt 17, lineAt 3]) (constructed 4 0) 16 ∧
    ∀ line ∈ renderedLines
        (refreshDisasm (envOf [lineAt 16, lineAt 17, lineAt 17, lineAt 3]) (constructed 4 0) 16),
      line.offset ≤
        (refreshDisasm (envOf [lineAt 16, lineAt 17, lineAt 17, lineAt 3])
          (constructed 4 0) 16).bottomOffset :=
  ⟨⟨rfl, Or.inl (by decide), by decide⟩,
    (refreshDisasm_window_invariant (envOf [lineAt 16, lineAt 17, lineAt 17, lineAt 3])
      (constructed 4 0) 16 ⟨rfl, Or.inl (by decide), by decide⟩).2 (by decide) (by decide)
      (by decide)⟩

/-- C9 fails as stated: with fetched addresses 16, 48, 32 and `maxLines = 3` all three lines
are rendered and `bottomOffset` is 32, below the rendered address 48. -/
theorem refreshDisasm_rendered_above_bottom :
    reachesRendering (envOf [lineAt 16, lineAt 48, lineAt 32]) (constructed 3 0) 16 ∧
    lineAt 48 ∈ renderedLines
      (refreshDisasm (envOf [lineAt 16, lineAt 48, lineAt 32]) (constructed 3 0) 16) ∧
    (refreshDisasm (envOf [lineAt 16, lineAt 48, lineAt 32]) (constructed 3 0) 16).bottomOffset
      < (lineAt 48).offset :=
  ⟨⟨rfl, Or.inl (by decide), by decide⟩, by decide, by decide⟩

/-! ## `updateCursorPosition`: normal form and idempotence -/

theorem positionLoop_eq (env : Env) (w : DisassemblyWidget) (offset : Nat) (l : List Block)
    (i : Nat) :
    positionLoop env w offset i l =
      match scanOutcome offset i l with
      | .found k => highlightCurrentLine env { w with cursor := settle w k }
      | .passed => { w with cursor := 0, extraSelections := [] }
      | .atEnd => w := by
  induction l generalizing i with
  | nil => rfl
  | cons b rest ih =>
    simp only [positionLoop, scanOutcome]
    by_cases h1 : blockOffset b = offset
    · simp only [if_pos h1]
      rfl
    · by_cases h2 : blockOffset b ≠ RVA_INVALID ∧ blockOffset b > offset
      · simp only [if_neg h1, if_pos h2]
      · simp only [if_neg h1, if_neg h2]
        exact ih (i + 1)

theorem updateCursorPosition_eq (env : Env) (w : DisassemblyWidget) :
    updateCursorPosition env w =
      if readCurrentDisassemblyOffset w = w.seekOffset then w else repositioned env w := by
  unfold updateCursorPosition repositioned
  by_cases h0 : readCurrentDisassemblyOffset w = w.seekOffset
  · simp [h0]
  · have h0' : readCurrentDisassemblyOffset (connectCursorPositionChanged w true) ≠ w.seekOffset :=
      h0
    simp only [h0, h0', if_false]
    by_cases hout : w.seekOffset < w.topOffset ∨
        (w.seekOffset > w.bottomOffset ∧ w.bottomOffset ≠ RVA_INVALID)
    · have hout' : w.seekOffset < (connectCursorPositionChanged w true).topOffset ∨
        (w.seekOffset > (connectCursorPositionChanged w true).bottomOffset ∧
          (connectCursorPositionChanged w true).bottomOffset ≠ RVA_INVALID) := hout
      rw [if_pos hout', if_pos hout]
      rfl
    · have hout' : ¬ (w.seekOffset < (connectCursorPositionChanged w true).topOffset ∨
        (w.seekOffset > (connectCursorPositionChanged w true).bottomOffset ∧
          (connectCursorPositionChanged w true).bottomOffset ≠ RVA_INVALID)) := hout
      rw [if_neg hout', if_neg hout, positionLoop_eq]
      show connectCursorPositionChanged
        (match scanOutcome w.seekOffset 0 w.blocks with
          | .found k => _ | .passed => _ | .atEnd => _) false = _
      cases scanOutcome w.seekOffset 0 w.blocks <;> rfl

theorem repositioned_repositioned (env : Env) (w : DisassemblyWidget) :
    repositioned env (repositioned env w) = repositioned env w := by
  unfold repositioned
  by_cases hout : w.seekOffset < w.topOffset ∨
      (w.seekOffset > w.bottomOffset ∧ w.bottomOffset ≠ RVA_INVALID)
  · simp only [if_pos hout]
  · simp only [if_neg hout]
    cases hs : scanOutcome w.seekOffset 0 w.blocks with
    | found k =>
      simp only [highlightCurrentLine, if_neg hout, hs, settle]
    | passed => simp only [if_neg hout, hs]
    | atEnd => simp only [if_neg hout, hs]

/-- C5. Cursor idempotence: running `updateCursorPosition` a second time, with the same seek
offset and collaborators, gives the state the first run gave: cursor, extra selections, window
and every other member are the same. -/
theorem updateCursorPosition_idempotent (env : Env) (w : DisassemblyWidget) :
    updateCursorPosition env (updateCursorPosition env w) = updateCursorPosition env w := by
  rw [updateCursorPosition_eq env (updateCursorPosition env w)]
  split_ifs with h1
  · rfl
  · rw [updateCursorPosition_eq env w]
    split_ifs with h0
    · rw [updateCursorPosition_eq env w, if_pos h0] at h1
      exact absurd h0 h1
    · exact repositioned_repositioned env w

/-! ## Duplicate addresses: `cursorPositionChanged` and `updateCursorPosition` -/

theorem readDisassemblyOffset_cons_succ (b : Block) (rest : List Block) (j : Nat) :
    readDisassemblyOffset (b :: rest) (j + 1) = readDisassemblyOffset rest j := by
  simp [readDisassemblyOffset]

theorem readDisassemblyOffset_of_lt (blocks : List Block) (j : Nat) (hj : j < blocks.length) :
    readDisassemblyOffset blocks j = blockOffset (blocks.get ⟨j, hj⟩) := by
  simp [readDisassemblyOffset, List.getElem?_eq_getElem hj]

theorem read_mono (blocks : List Block) (h : nonDecreasing blocks) (j k : Nat) (hjk : j ≤ k)
    (hk : k < blocks.length) :
    readDisassemblyOffset blocks j ≤ readDisassemblyOffset blocks k := by
  rcases Nat.eq_or_lt_of_le hjk with rfl | hlt
  · exact le_refl _
  · rw [readDisassemblyOffset_of_lt blocks j (by omega), readDisassemblyOffset_of_lt blocks k hk]
    have := List.pairwise_iff_get.mp h ⟨j, by simp; omega⟩ ⟨k, by simpa using hk⟩ (by simpa using hlt)
    simpa using this

theorem scanOutcome_found (offset : Nat) (l : List Block) (i k : Nat) (hk : k < l.length)
    (hat : readDisassemblyOffset l k = offset)
    (hbefore : ∀ j, j < k → readDisassemblyOffset l j < offset) :
    scanOutcome offset i l = .found (i + k) := by
  induction l generalizing i k with
  | nil => simp at hk
  | cons b rest ih =>
    cases k with
    | zero =>
      have : blockOffset b = offset := by simpa [readDisassemblyOffset] using hat
      simp [scanOutcome, this]
    | succ k =>
      have h0 : blockOffset b < offset := by
        have := hbefore 0 (by omega)
        simpa [readDisassemblyOffset] using this
      have hne : blockOffset b ≠ offset := by omega
      have hng : ¬ (blockOffset b ≠ RVA_INVALID ∧ blockOffset b > offset) := by
        intro h; omega
      simp only [scanOutcome, if_neg hne, if_neg hng]
      rw [ih (i + 1) k (by simpa using hk) (by simpa [readDisassemblyOffset_cons_succ] using hat)
        (fun j hj => by
          have := hbefore (j + 1) (by omega)
          simpa [readDisassemblyOffset_cons_succ] using this)]
      congr 1
      omega

theorem previousBlockLoop_spec (blocks : List Block) (A : Nat) (c : Nat) :
    previousBlockLoop blocks A c ≤ c ∧
    (∀ j, c - previousBlockLoop blocks A c ≤ j → j < c → readDisassemblyOffset blocks j = A) ∧
    (previousBlockLoop blocks A c < c →
      readDisassemblyOffset blocks (c - previousBlockLoop blocks A c - 1) ≠ A) := by
  induction c with
  | zero => simp [previousBlockLoop]
  | succ c ih =>
    obtain ⟨h1, h2, h3⟩ := ih
    simp only [previousBlockLoop]
    by_cases hc : readDisassemblyOffset blocks c = A
    · simp only [ne_eq, hc, not_true_eq_false, if_false]
      refine ⟨by omega, ?_, ?_⟩
      · intro j hj1 hj2
        rcases Nat.lt_or_ge j c with hlt | hge
        · exact h2 j (by omega) hlt
        · have : j = c := by omega
          rw [this]; exact hc
      · intro hlt
        have := h3 (by omega)
        have e : c + 1 - (previousBlockLoop blocks A c + 1) - 1
            = c - previousBlockLoop blocks A c - 1 := by omega
        rw [e]; exact this
    · simp only [ne_eq, hc, not_false_eq_true, if_true]
      refine ⟨by omega, ?_, ?_⟩
      · intro j hj1 hj2
        omega
      · intro _
        simpa using hc

theorem previousBlockLoop_eq_runLength (blocks : List Block) (A : Nat) (c : Nat)
    (hc : c ≤ blocks.length) :
    previousBlockLoop blocks A c
      = ((blocks.take c).reverse.takeWhile fun b => decide (blockOffset b = A)).length := by
  induction c with
  | zero => simp [previousBlockLoop]
  | succ c ih =>
    have hlt : c < blocks.length := by omega
    have htake : blocks.take (c + 1) = blocks.take c ++ [blocks.get ⟨c, hlt⟩] := by
      rw [List.take_succ, List.getElem?_eq_getElem hlt]
      rfl
    rw [htake, List.reverse_append, List.reverse_singleton, List.singleton_append]
    simp only [previousBlockLoop, readDisassemblyOffset_of_lt blocks c hlt]
    by_cases hA : blockOffset (blocks.get ⟨c, hlt⟩) = A
    · have hA' : blockOffset blocks[c] = A := hA
      simp [List.takeWhile_cons, hA', ih (by omega)]
    · have hA' : ¬ blockOffset blocks[c] = A := hA
      simp [List.takeWhile_cons, hA']

theorem refreshDisasm_eq (env : Env) (w : DisassemblyWidget) (offset : Nat) :
    refreshDisasm env w offset =
      if env.attemptRefresh (if offset = RVA_INVALID then none else some offset) = true then
        if requestedTop w offset = RVA_INVALID then w
        else if w.maxLines ≤ 0 then
          connectCursorPositionChanged (clear (connectCursorPositionChanged
            { w with topOffset := requestedTop w offset } true)) false
        else updateCursorPosition env (render env { w with topOffset := requestedTop w offset })
      else w := by
  unfold refreshDisasm requestedTop
  by_cases ha : env.attemptRefresh (if offset = RVA_INVALID then none else some offset) = true
  · simp only [ha, Bool.not_true, Bool.false_eq_true, if_false, if_true]
    by_cases ho : offset = RVA_INVALID
    · simp only [ho, ne_eq, not_true_eq_false, if_false]
    · simp only [ne_eq, ho, not_false_eq_true, if_true, if_false]
  · simp only [ha, Bool.not_false, if_true, if_false]
    simp

theorem refreshDisasm_frame (env : Env) (w : DisassemblyWidget) (offset : Nat) :
    (refreshDisasm env w offset).cursorLineOffset = w.cursorLineOffset ∧
    (refreshDisasm env w offset).seekFromCursor = w.seekFromCursor ∧
    (refreshDisasm env w offset).seekOffset = w.seekOffset ∧
    (refreshDisasm env w offset).maxLines = w.maxLines := by
  rw [refreshDisasm_eq]
  by_cases ha : env.attemptRefresh (if offset = RVA_INVALID then none else some offset) = true
  · rw [if_pos ha]
    by_cases ht : requestedTop w offset = RVA_INVALID
    · rw [if_pos ht]
      exact ⟨rfl, rfl, rfl, rfl⟩
    · rw [if_neg ht]
      by_cases hm : w.maxLines ≤ 0
      · rw [if_pos hm]
        exact ⟨rfl, rfl, rfl, rfl⟩
      · rw [if_neg hm]
        obtain ⟨-, -, -, u4, -, u6, u7, u8⟩ := updateCursorPosition_frame env
          (render env { w with topOffset := requestedTop w offset })
        obtain ⟨-, -, -, r4, -, r6, r7, r8, -⟩ :=
          render_spec env { w with topOffset := requestedTop w offset }
        exact ⟨u6.trans r6, u7.trans r7, u8.trans r8, u4.trans r4⟩
  · rw [if_neg ha]
    exact ⟨rfl, rfl, rfl, rfl⟩

theorem on_seekChanged_cursorLineOffset (env : Env) (w : DisassemblyWidget) (offset : Nat)
    (h : w.seekFromCursor = true) :
    (on_seekChanged env w offset).cursorLineOffset = w.cursorLineOffset := by
  unfold on_seekChanged
  simp only [h, Bool.not_true, Bool.false_eq_true, if_false]
  split_ifs
  · exact (updateCursorPosition_frame env w).2.2.2.2.2.1
  · exact (refreshDisasm_frame env w offset).1

theorem cursorPositionChanged_cursorLineOffset (env : Env) (w : DisassemblyWidget) :
    (cursorPositionChanged env w).cursorLineOffset
      = (previousBlockLoop w.blocks (readCurrentDisassemblyOffset w) w.cursor : Nat) := by
  unfold cursorPositionChanged seek
  simp only [highlightCurrentLine]
  rw [on_seekChanged_cursorLineOffset _ _ _ rfl]

/-- C4 (as amended). Duplicate-address round trip.  In a window whose addresses are
non-decreasing, with the cursor on paragraph `i` of address `A`, `cursorPositionChanged` sets
`cursorLineOffset` to the number of paragraphs directly before `i` in the same run of address
`A`; and `updateCursorPosition` with that `cursorLineOffset` and a target `A` that lies in the
range of the window (`topOffset ≤ A`, and `A ≤ bottomOffset` unless `bottomOffset` is the
sentinel), started with the cursor on a paragraph `j` of another address, puts the cursor back on
paragraph `i`. -/
theorem cursor_round_trip (env : Env) (w : DisassemblyWidget) (i : Nat)
    (hi : i < w.blocks.length) (hSorted : nonDecreasing w.blocks) :
    (cursorPositionChanged env { w with cursor := i }).cursorLineOffset
      = (runBefore w.blocks i : Nat) ∧
    ∀ j, readDisassemblyOffset w.blocks j ≠ readDisassemblyOffset w.blocks i →
      w.topOffset ≤ readDisassemblyOffset w.blocks i →
      (readDisassemblyOffset w.blocks i ≤ w.bottomOffset ∨ w.bottomOffset = RVA_INVALID) →
      (updateCursorPosition env
        { w with cursor := j, seekOffset := readDisassemblyOffset w.blocks i,
                 cursorLineOffset := (runBefore w.blocks i : Nat) }).cursor = i := by
  have hrun : previousBlockLoop w.blocks (readDisassemblyOffset w.blocks i) i
      = runBefore w.blocks i :=
    previousBlockLoop_eq_runLength w.blocks _ i (by omega)
  refine ⟨?_, ?_⟩
  · rw [cursorPositionChanged_cursorLineOffset]
    show ((previousBlockLoop w.blocks (readDisassemblyOffset w.blocks i) i : Nat) : Int) = _
    rw [hrun]
  · intro j hj hTop hBottom
    obtain ⟨hle, hin, hout⟩ := previousBlockLoop_spec w.blocks (readDisassemblyOffset w.blocks i) i
    rw [hrun] at hle hin hout
    generalize hA : readDisassemblyOffset w.blocks i = A at *
    generalize hn : runBefore w.blocks i = n at *
    -- the first paragraph of the run
    have hfirst : readDisassemblyOffset w.blocks (i - n) = A := by
      rcases Nat.eq_zero_or_pos n with h0 | hpos
      · rw [h0]; exact hA
      · exact hin (i - n) (le_refl _) (by omega)
    have hbefore : ∀ k, k < i - n → readDisassemblyOffset w.blocks k < A := by
      intro k hk
      have hlt : n < i := by omega
      have hne := hout hlt
      have h1 : readDisassemblyOffset w.blocks k ≤ readDisassemblyOffset w.blocks (i - n - 1) :=
        read_mono w.blocks hSorted k (i - n - 1) (by omega) (by omega)
      have h2 : readDisassemblyOffset w.blocks (i - n - 1) ≤ readDisassemblyOffset w.blocks i :=
        read_mono w.blocks hSorted (i - n - 1) i (by omega) hi
      rw [hA] at h2
      omega
    have hscan : scanOutcome A 0 w.blocks = .found (i - n) := by
      have := scanOutcome_found A w.blocks 0 (i - n) (by omega) hfirst hbefore
      simpa using this
    rw [updateCursorPosition_eq]
    have hcur : readCurrentDisassemblyOffset
        { w with cursor := j, seekOffset := A, cursorLineOffset := (n : Int) } ≠ A := hj
    rw [if_neg hcur]
    unfold repositioned
    have hin' : ¬ (A < w.topOffset ∨ (A > w.bottomOffset ∧ w.bottomOffset ≠ RVA_INVALID)) := by
      rintro (h | ⟨h1, h2⟩)
      · omega
      · rcases hBottom with hb | hb
        · omega
        · exact h2 hb
    simp only [if_neg hin', hscan, highlightCurrentLine, settle, moveDown]
    split_ifs with hpos
    · simp only [Int.toNat_ofNat]
      omega
    · have : n = 0 := by omega
      omega

/-- C4 (as amended) on a window with three consecutive lines at address 32 (paragraphs 1, 2, 3):
with the cursor on the third of them `cursorPositionChanged` sets `cursorLineOffset = 2`, and
`updateCursorPosition` with target 32 and `cursorLineOffset = 2`, started on paragraph 0, lands
on paragraph 3, the third occurrence. -/
theorem cursor_round_trip_witness :
    3 < (windowOf [16, 32, 32, 32, 48] 16 48 16).blocks.length ∧
    nonDecreasing (windowOf [16, 32, 32, 32, 48] 16 48 16).blocks ∧
    (cursorPositionChanged (envOf [])
      { windowOf [16, 32, 32, 32, 48] 16 48 16 with cursor := 3 }).cursorLineOffset = 2 ∧
    (updateCursorPosition (envOf [])
      { windowOf [16, 32, 32, 32, 48] 16 48 16 with
        cursor := 0, seekOffset := 32, cursorLineOffset := 2 }).cursor = 3 :=
  ⟨by decide, by unfold nonDecreasing; decide,
    (cursor_round_trip (envOf []) (windowOf [16, 32, 32, 32, 48] 16 48 16) 3 (by decide)
      (by unfold nonDecreasing; decide)).1,
    (cursor_round_trip (envOf []) (windowOf [16, 32, 32, 32, 48] 16 48 16) 3 (by decide)
      (by unfold nonDecreasing; decide)).2 0 (by decide) (by decide) (Or.inl (by decide))⟩

/-- C4 fails as stated.  The refresh at `0x100` with `maxLines = 4` and fetched addresses
`0x100, 0x200, 0x50, 0x150` renders the lines at `0x100` and `0x200` (non-decreasing) and sets
`bottomOffset = 0x150`.  With the cursor on paragraph 1 (address `0x200`)
`cursorPositionChanged` computes `cursorLineOffset = 0`; but `updateCursorPosition` with target
`0x200` and `cursorLineOffset = 0`, started on paragraph 0, finds the target above
`bottomOffset` and leaves the cursor on paragraph 0, not on paragraph 1. -/
theorem cursor_round_trip_outside_range :
    renderedLines
        (refreshDisasm (envOf [lineAt 256, lineAt 512, lineAt 80, lineAt 336]) (constructed 4 0) 256)
      = [lineAt 256, lineAt 512] ∧
    nonDecreasing
      (refreshDisasm (envOf [lineAt 256, lineAt 512, lineAt 80, lineAt 336])
        (constructed 4 0) 256).blocks ∧
    readDisassemblyOffset
      (refreshDisasm (envOf [lineAt 256, lineAt 512, lineAt 80, lineAt 336])
        (constructed 4 0) 256).blocks 1 = 512 ∧
    runBefore
      (refreshDisasm (envOf [lineAt 256, lineAt 512, lineAt 80, lineAt 336])
        (constructed 4 0) 256).blocks 1 = 0 ∧
    readDisassemblyOffset
      (refreshDisasm (envOf [lineAt 256, lineAt 512, lineAt 80, lineAt 336])
        (constructed 4 0) 256).blocks 0 ≠ 512 ∧
    (updateCursorPosition (envOf [])
      { refreshDisasm (envOf [lineAt 256, lineAt 512, lineAt 80, lineAt 336])
          (constructed 4 0) 256 with
        cursor := 0, seekOffset := 512, cursorLineOffset := 0 }).cursor = 0 :=
  ⟨by decide, by unfold nonDecreasing; decide, by decide, by decide, by decide, by decide⟩

/-! ## `on_seekChanged` -/

theorem on_seekChanged_in_window (env : Env) (w : DisassemblyWidget) (a : Nat)
    (hLoaded : w.topOffset ≠ RVA_INVALID) (hIn : inWindow w a) :
    on_seekChanged env w a
      = updateCursorPosition env
          (if !w.seekFromCursor then { w with cursorLineOffset := 0 } else w) := by
  unfold on_seekChanged
  obtain ⟨h1, h2⟩ := hIn
  cases hs : w.seekFromCursor
  · simp [hLoaded, h1, h2]
  · simp [hLoaded, h1, h2]

theorem on_seekChanged_out_of_window (env : Env) (w : DisassemblyWidget) (a : Nat)
    (hOut : ¬ inWindow w a) :
    on_seekChanged env w a
      = refreshDisasm env (if !w.seekFromCursor then { w with cursorLineOffset := 0 } else w) a := by
  unfold on_seekChanged
  unfold inWindow at hOut
  cases hs : w.seekFromCursor
  · simp only [Bool.not_false, if_true]
    rw [if_neg]
    rintro ⟨-, h1, h2⟩
    exact hOut ⟨h1, h2⟩
  · simp only [Bool.not_true, Bool.false_eq_true, if_false]
    rw [if_neg]
    rintro ⟨-, h1, h2⟩
    exact hOut ⟨h1, h2⟩

theorem refreshDisasm_topOffset (env : Env) (w : DisassemblyWidget) (a : Nat)
    (ha : a ≠ RVA_INVALID) (hAttempt : env.attemptRefresh (some a) = true) :
    (refreshDisasm env w a).topOffset = a := by
  have hr : requestedTop w a = a := by simp [requestedTop, ha]
  rw [refreshDisasm_eq, if_neg ha, if_pos hAttempt, hr, if_neg ha]
  by_cases hm : w.maxLines ≤ 0
  · rw [if_pos hm]; rfl
  · rw [if_neg hm]
    exact (updateCursorPosition_frame env _).2.1.trans (render_spec env _).2.1

theorem updateCursorPosition_first (env : Env) (v : DisassemblyWidget) (a : Nat)
    (hSeek : v.seekOffset = a) (hclo : v.cursorLineOffset = 0)
    (hin : ¬ (a < v.topOffset ∨ (a > v.bottomOffset ∧ v.bottomOffset ≠ RVA_INVALID)))
    (hSorted : nonDecreasing v.blocks)
    (hEx : ∃ p, p < v.blocks.length ∧ readDisassemblyOffset v.blocks p = a)
    (hcur : readCurrentDisassemblyOffset v ≠ a) :
    readCurrentDisassemblyOffset (updateCursorPosition env v) = a ∧
    ∀ k, k < (updateCursorPosition env v).cursor → readDisassemblyOffset v.blocks k ≠ a := by
  obtain ⟨hf1, hf2⟩ := Nat.find_spec hEx
  have hmin : ∀ k, k < Nat.find hEx → readDisassemblyOffset v.blocks k ≠ a := by
    intro k hk hka
    exact Nat.find_min hEx hk ⟨by omega, hka⟩
  have hbefore : ∀ k, k < Nat.find hEx → readDisassemblyOffset v.blocks k < a := by
    intro k hk
    have h1 := read_mono v.blocks hSorted k (Nat.find hEx) (by omega) hf1
    have h2 := hmin k hk
    omega
  have hscan : scanOutcome a 0 v.blocks = .found (Nat.find hEx) := by
    have := scanOutcome_found a v.blocks 0 (Nat.find hEx) hf1 hf2 hbefore
    simpa using this
  have hblocks := (updateCursorPosition_frame env v).1
  have hcursor : (updateCursorPosition env v).cursor = Nat.find hEx := by
    rw [updateCursorPosition_eq, if_neg (by rw [hSeek]; exact hcur)]
    unfold repositioned
    rw [hSeek, if_neg hin, hscan]
    simp [highlightCurrentLine, settle, hclo]
  refine ⟨?_, ?_⟩
  · unfold readCurrentDisassemblyOffset
    rw [hcursor, hblocks]
    exact hf2
  · intro k hk
    rw [hcursor] at hk
    exact hmin k hk

/-- C3 (as amended). For a loaded window and a seek to `a` (the offset of the seekable is `a`):
when `a` lies in `[topOffset, bottomOffset]` no refresh is made (top, bottom, paragraphs and
stored lines are unchanged) and, when the addresses of the window are non-decreasing, some
paragraph has address `a` and a cursor-sourced seek is a seek to the address under the cursor,
the cursor is left on a paragraph of address `a`, the first such paragraph when the cursor was
elsewhere and the seek is not cursor-sourced; otherwise, when `a` is not the invalid-address
sentinel and the refresh is not deferred, the window is refreshed with `topOffset = a`. -/
theorem on_seekChanged_spec (env : Env) (w : DisassemblyWidget) (a : Nat)
    (hLoaded : w.topOffset ≠ RVA_INVALID) (hSeek : w.seekOffset = a) :
    (inWindow w a →
      (on_seekChanged env w a).topOffset = w.topOffset ∧
      (on_seekChanged env w a).bottomOffset = w.bottomOffset ∧
      (on_seekChanged env w a).blocks = w.blocks ∧
      (on_seekChanged env w a).lines = w.lines ∧
      (nonDecreasing w.blocks →
        (∃ p, p < w.blocks.length ∧ readDisassemblyOffset w.blocks p = a) →
        (w.seekFromCursor = true → readCurrentDisassemblyOffset w = a) →
        readCurrentDisassemblyOffset (on_seekChanged env w a) = a ∧
        (readCurrentDisassemblyOffset w ≠ a → w.seekFromCursor = false →
          ∀ k, k < (on_seekChanged env w a).cursor → readDisassemblyOffset w.blocks k ≠ a))) ∧
    (¬ inWindow w a → a ≠ RVA_INVALID → env.attemptRefresh (some a) = true →
      (on_seekChanged env w a).topOffset = a) := by
  refine ⟨?_, ?_⟩
  · intro hIn
    rw [on_seekChanged_in_window env w a hLoaded hIn]
    obtain ⟨u1, u2, u3, -, u5, -⟩ := updateCursorPosition_frame env
      (if !w.seekFromCursor then { w with cursorLineOffset := 0 } else w)
    have e : ∀ b : Bool, (if b then { w with cursorLineOffset := 0 } else w).blocks = w.blocks ∧
        (if b then { w with cursorLineOffset := 0 } else w).topOffset = w.topOffset ∧
        (if b then { w with cursorLineOffset := 0 } else w).bottomOffset = w.bottomOffset ∧
        (if b then { w with cursorLineOffset := 0 } else w).lines = w.lines := by
      intro b; cases b <;> exact ⟨rfl, rfl, rfl, rfl⟩
    obtain ⟨e1, e2, e3, e4⟩ := e (!w.seekFromCursor)
    refine ⟨u2.trans e2, u3.trans e3, u1.trans e1, u5.trans e4, ?_⟩
    intro hSorted hEx hSourced
    by_cases hcur : readCurrentDisassemblyOffset w = a
    · have hnoop : updateCursorPosition env
          (if !w.seekFromCursor then { w with cursorLineOffset := 0 } else w)
          = (if !w.seekFromCursor then { w with cursorLineOffset := 0 } else w) := by
        rw [updateCursorPosition_eq, if_pos]
        cases w.seekFromCursor
        · exact hcur.trans hSeek.symm
        · exact hcur.trans hSeek.symm
      rw [hnoop]
      refine ⟨?_, fun h => absurd hcur h⟩
      cases w.seekFromCursor
      · exact hcur
      · exact hcur
    · have hsf : w.seekFromCursor = false := by
        cases h : w.seekFromCursor
        · rfl
        · exact absurd (hSourced h) hcur
      have e0 : (if (!w.seekFromCursor) = true then
          ({ w with cursorLineOffset := 0 } : DisassemblyWidget) else w)
          = { w with cursorLineOffset := 0 } := if_pos (by rw [hsf]; rfl)
      rw [e0]
      have hin' : ¬ (a < w.topOffset ∨ (a > w.bottomOffset ∧ w.bottomOffset ≠ RVA_INVALID)) := by
        obtain ⟨h1, h2⟩ := hIn
        rintro (h | ⟨h3, -⟩) <;> omega
      obtain ⟨r1, r2⟩ := updateCursorPosition_first env { w with cursorLineOffset := 0 } a hSeek rfl
        hin' hSorted hEx hcur
      exact ⟨r1, fun _ _ => r2⟩
  · intro hOut ha hAttempt
    rw [on_seekChanged_out_of_window env w a hOut]
    exact refreshDisasm_topOffset env _ a ha hAttempt

/-- C3 (as amended) on the end-to-end scenario: the seek to `0x105` makes no refresh and puts
the cursor on the sixth paragraph; the seek to `0x200` refreshes with `topOffset = 0x200`. -/
theorem on_seekChanged_spec_witness :
    ((scenarioWindow 261).topOffset ≠ RVA_INVALID ∧ (scenarioWindow 261).seekOffset = 261 ∧
      inWindow (scenarioWindow 261) 261 ∧
      (on_seekChanged (envOf []) (scenarioWindow 261) 261).blocks = (scenarioWindow 261).blocks ∧
      readCurrentDisassemblyOffset (on_seekChanged (envOf []) (scenarioWindow 261) 261) = 261 ∧
      (on_seekChanged (envOf []) (scenarioWindow 261) 261).cursor = 5) ∧
    ((scenarioWindow 512).topOffset ≠ RVA_INVALID ∧ (scenarioWindow 512).seekOffset = 512 ∧
      ¬ inWindow (scenarioWindow 512) 512 ∧
      (on_seekChanged (envOf [lineAt 512]) (scenarioWindow 512) 512).topOffset = 512) :=
  ⟨⟨by decide, rfl, by unfold inWindow; decide,
      ((on_seekChanged_spec (envOf []) (scenarioWindow 261) 261 (by decide) rfl).1
        (by unfold inWindow; decide)).2.2.1,
      (((on_seekChanged_spec (envOf []) (scenarioWindow 261) 261 (by decide) rfl).1
        (by unfold inWindow; decide)).2.2.2.2 (by unfold nonDecreasing; decide)
        ⟨5, by decide, by decide⟩ (by decide)).1,
      by decide⟩,
    ⟨by decide, rfl, by unfold inWindow; decide,
      (on_seekChanged_spec (envOf [lineAt 512]) (scenarioWindow 512) 512 (by decide) rfl).2
        (by unfold inWindow; decide) (by decide) rfl⟩⟩

/-- C3 fails as stated in three ways.  (1) A seek to the invalid-address sentinel outside the
window calls `refreshDisasm` with no requested address, and `topOffset` stays `0x100`.  (2) When
`attemptRefresh` defers the refresh, the seek to `0x200` leaves `topOffset` at `0x100`.  (3) A
seek flagged as cursor-sourced whose address 17 is not under the cursor, with a left-over
`cursorLineOffset = 1`, puts the cursor one paragraph after the paragraph of address 17. -/
theorem on_seekChanged_not_always :
    ((scenarioWindow RVA_INVALID).topOffset ≠ RVA_INVALID ∧
      (scenarioWindow RVA_INVALID).seekOffset = RVA_INVALID ∧
      ¬ inWindow (scenarioWindow RVA_INVALID) RVA_INVALID ∧
      (on_seekChanged (envOf [lineAt 512]) (scenarioWindow RVA_INVALID) RVA_INVALID).topOffset
        = 256) ∧
    ((scenarioWindow 512).topOffset ≠ RVA_INVALID ∧ (scenarioWindow 512).seekOffset = 512 ∧
      ¬ inWindow (scenarioWindow 512) 512 ∧
      (on_seekChanged deferringEnv (scenarioWindow 512) 512).topOffset = 256) ∧
    (inWindow { windowOf [16, 17, 18] 16 18 17 with seekFromCursor := true, cursorLineOffset := 1 }
        17 ∧
      nonDecreasing (windowOf [16, 17, 18] 16 18 17).blocks ∧
      readDisassemblyOffset (windowOf [16, 17, 18] 16 18 17).blocks 1 = 17 ∧
      readCurrentDisassemblyOffset (on_seekChanged (envOf [])
        { windowOf [16, 17, 18] 16 18 17 with seekFromCursor := true, cursorLineOffset := 1 } 17)
        = 18) :=
  ⟨⟨by decide, rfl, by unfold inWindow; decide, by decide⟩,
    ⟨by decide, rfl, by unfold inWindow; decide, by decide⟩,
    ⟨by unfold inWindow; decide, by unfold nonDecreasing; decide, by decide, by decide⟩⟩

/-! ## `scrollInstructions` -/

/-- C7. Wraparound clamps: for `k > 0`, `scrollInstructions(k)` calls `refreshDisasm` at
`nextOpAddr(topOffset, k)` when that address is `≥ topOffset` and at the maximum representable
address when it is smaller; for `k < 0` it calls `refreshDisasm` at `prevOpAddr(topOffset, -k)`
when that address is `≤ topOffset` and at address 0 when it is greater. -/
theorem scrollInstructions_clamps (env : Env) (w : DisassemblyWidget) (k : Int) :
    (0 < k → w.topOffset ≤ env.nextOpAddr w.topOffset k →
      scrollInstructions env w k = refreshDisasm env w (env.nextOpAddr w.topOffset k)) ∧
    (0 < k → env.nextOpAddr w.topOffset k < w.topOffset →
      scrollInstructions env w k = refreshDisasm env w RVA_MAX) ∧
    (k < 0 → env.prevOpAddr w.topOffset (-k) ≤ w.topOffset →
      scrollInstructions env w k = refreshDisasm env w (env.prevOpAddr w.topOffset (-k))) ∧
    (k < 0 → w.topOffset < env.prevOpAddr w.topOffset (-k) →
      scrollInstructions env w k = refreshDisasm env w 0) := by
  refine ⟨?_, ?_, ?_, ?_⟩
  · intro hk h
    have hk0 : k ≠ 0 := by omega
    simp [scrollInstructions, scrollInstructionsOffset, hk0, hk, not_lt.mpr h]
  · intro hk h
    have hk0 : k ≠ 0 := by omega
    simp [scrollInstructions, scrollInstructionsOffset, hk0, hk, h]
  · intro hk h
    have hk0 : k ≠ 0 := by omega
    have hk1 : ¬ 0 < k := by omega
    simp [scrollInstructions, scrollInstructionsOffset, hk0, hk1, not_lt.mpr h]
  · intro hk h
    have hk0 : k ≠ 0 := by omega
    have hk1 : ¬ 0 < k := by omega
    simp [scrollInstructions, scrollInstructionsOffset, hk0, hk1, h]

/-- C7 near the ends of the address space: scrolling 3 forward from `RVA_MAX - 1` wraps to
address 1 and is clamped to `RVA_MAX`; scrolling 3 backward from address 2 wraps to `RVA_MAX`
and is clamped to 0. -/
theorem scrollInstructions_clamps_witness :
    ((0 : Int) < 3 ∧
      (envOf []).nextOpAddr (windowOf [] (RVA_MAX - 1) RVA_MAX 0).topOffset 3
        < (windowOf [] (RVA_MAX - 1) RVA_MAX 0).topOffset ∧
      scrollInstructions (envOf []) (windowOf [] (RVA_MAX - 1) RVA_MAX 0) 3
        = refreshDisasm (envOf []) (windowOf [] (RVA_MAX - 1) RVA_MAX 0) RVA_MAX) ∧
    ((-3 : Int) < 0 ∧
      (windowOf [] 2 2 0).topOffset < (envOf []).prevOpAddr (windowOf [] 2 2 0).topOffset (- -3) ∧
      scrollInstructions (envOf []) (windowOf [] 2 2 0) (-3)
        = refreshDisasm (envOf []) (windowOf [] 2 2 0) 0) :=
  ⟨⟨by decide, by decide,
      (scrollInstructions_clamps (envOf []) (windowOf [] (RVA_MAX - 1) RVA_MAX 0) 3).2.1
        (by decide) (by decide)⟩,
    ⟨by decide, by decide,
      (scrollInstructions_clamps (envOf []) (windowOf [] 2 2 0) (-3)).2.2.2
        (by decide) (by decide)⟩⟩

/-! ## Page-up in `moveCursorRelative` -/

theorem vectorAt_of_lt (lines : List DisassemblyLine) (i : Nat) (hi : i < lines.length) :
    vectorAt lines (i : Int) = .ok (lines.getD i default) := by
  unfold vectorAt
  simp [List.getD_eq_getElem?_getD, List.getElem?_eq_getElem hi]

theorem oldTopLineLoop_eq (lines : List DisassemblyLine) (topOffset T : Nat) (n : Nat)
    (hn : n ≤ lines.length) (hT : T ≤ n)
    (hBelow : 0 < T → addressAt lines (T - 1) < topOffset)
    (hAbove : ∀ i, T ≤ i → i < n → topOffset ≤ addressAt lines i) :
    oldTopLineLoop lines topOffset n = .ok (T : Int) := by
  induction n with
  | zero =>
    have : T = 0 := by omega
    subst this
    rfl
  | succ n ih =>
    have hv : vectorAt lines (((n + 1 : Nat) : Int) - 1) = .ok (lines.getD n default) := by
      have : (((n + 1 : Nat) : Int) - 1) = (n : Int) := by omega
      rw [this]
      exact vectorAt_of_lt lines n (by omega)
    simp only [oldTopLineLoop, hv]
    rcases Nat.eq_or_lt_of_le hT with hEq | hLt
    · have hb := hBelow (by omega)
      rw [hEq] at hb
      simp only [Nat.add_sub_cancel] at hb
      unfold addressAt at hb
      rw [if_pos hb, hEq]
    · have ha := hAbove n (by omega) (by omega)
      unfold addressAt at ha
      rw [if_neg (by omega)]
      exact ih (by omega) (by omega) (fun i h1 h2 => hAbove i h1 (by omega))

theorem skipDuplicatesLoop_spec (lines : List DisassemblyLine) (fuel m : Nat) (hm : 1 ≤ m)
    (hlen : m < lines.length) (hfuel : lines.length - m ≤ fuel) :
    ∃ j : Nat, skipDuplicatesLoop lines fuel (m : Int) = .ok (j : Int) ∧ m ≤ j ∧
      j < lines.length ∧
      (∀ i, m ≤ i → i < j → addressAt lines (i - 1) = addressAt lines i) ∧
      (j < lines.length - 1 → addressAt lines (j - 1) ≠ addressAt lines j) := by
  induction fuel generalizing m with
  | zero => omega
  | succ fuel ih =>
    have hv1 : vectorAt lines ((m : Int) - 1) = .ok (lines.getD (m - 1) default) := by
      have : ((m : Int) - 1) = ((m - 1 : Nat) : Int) := by omega
      rw [this]
      exact vectorAt_of_lt lines (m - 1) (by omega)
    have hv2 := vectorAt_of_lt lines m hlen
    simp only [skipDuplicatesLoop, hv1, hv2]
    by_cases hc : (lines.getD (m - 1) default).offset = (lines.getD m default).offset ∧
        (m : Int) < (lines.length : Int) - 1
    · rw [if_pos hc]
      obtain ⟨j, h1, h2, h3, h4, h5⟩ := ih (m + 1) (by omega) (by omega) (by omega)
      refine ⟨j, ?_, by omega, h3, ?_, h5⟩
      · have : ((m : Int) + 1) = ((m + 1 : Nat) : Int) := by omega
        rw [this]; exact h1
      · intro i hi1 hi2
        rcases Nat.eq_or_lt_of_le hi1 with hEq | hLt
        · rw [← hEq]; exact hc.1
        · exact h4 i (by omega) hi2
    · rw [if_neg hc]
      refine ⟨m, rfl, le_refl _, hlen, fun i h1 h2 => by omega, ?_⟩
      intro hlt
      intro hEq
      exact hc ⟨hEq, by omega⟩

/-- What the correction of page-up computes.  In page-up with `maxLines = N ≥ 1` and a
candidate address not above `topOffset`, let `T - 1` be the index of the last fetched line whose
address is below the old `topOffset`.  When `T > N`, the refresh is requested at the address of
the fetched line with an index `j`, `T - N ≤ j ≤ T`, reached from `T - N` by skipping lines that
have the address of their predecessor; the number `T - j` of fetched lines from `j` up to that
last below-old-top line is exactly `N` when no line is skipped and fewer than `N` when lines
are skipped; `j = T`, a line that is not below the old top, is not excluded. -/
theorem pageUp_correction (env : Env) (w : DisassemblyWidget) (N T : Nat)
    (lines : List DisassemblyLine) (hN : w.maxLines = (N : Int)) (hPos : 1 ≤ N)
    (hCandidate : env.prevOpAddr w.topOffset w.maxLines ≤ w.topOffset)
    (hLines : env.disassembleLines (env.prevOpAddr w.topOffset w.maxLines) w.maxLines = lines)
    (hT : T ≤ lines.length) (hBelow : addressAt lines (T - 1) < w.topOffset)
    (hAbove : ∀ i, T ≤ i → i < lines.length → w.topOffset ≤ addressAt lines i)
    (hMore : N < T) :
    ∃ j : Nat, pageOffset env w true = .ok (addressAt lines j) ∧
      T - N ≤ j ∧ j ≤ T ∧ j < lines.length ∧
      (∀ i, T - N ≤ i → i < j → addressAt lines (i - 1) = addressAt lines i) ∧
      (j < lines.length - 1 → addressAt lines (j - 1) ≠ addressAt lines j) ∧
      (j = T - N → T - j = N) ∧
      (T - N < j → T - j < N) := by
  obtain ⟨j, h1, h2, h3, h4, h5⟩ := skipDuplicatesLoop_spec lines (lines.length + 1) (T - N)
    (by omega) (by omega) (by omega)
  have hjT : j ≤ T := by
    by_contra hcon
    have hTlt : T < j := by omega
    have := h4 T (by omega) hTlt
    have hge := hAbove T (le_refl _) (by omega)
    omega
  refine ⟨j, ?_, h2, hjT, h3, h4, h5, by omega, by omega⟩
  have hold := oldTopLineLoop_eq lines w.topOffset T lines.length (le_refl _) hT
    (fun _ => hBelow) hAbove
  have hov : ((T : Int) - w.maxLines) = ((T - N : Nat) : Int) := by omega
  have hpos : ((T - N : Nat) : Int) > 0 := by omega
  unfold pageOffset pageUpCorrection
  simp only [Bool.not_true, Bool.false_eq_true, if_false, if_neg (not_lt.mpr hCandidate), hLines,
    hold, hov, if_pos hpos, h1, vectorAt_of_lt lines j h3]
  rfl

/-- The correction of page-up with `maxLines = 2`, old top 16 and fetched addresses 3, 5, 5,
9, 18: the
last line below the old top has index 3 (`T = 4`), the line with index 2 repeats the address of
its predecessor and is skipped, and the refresh is requested at address 9 (`j = 3`). -/
theorem pageUp_correction_witness :
    (windowOf [16, 17] 16 17 16).maxLines = ((2 : Nat) : Int) ∧ 1 ≤ 2 ∧
    (envOf [lineAt 3, lineAt 5, lineAt 5, lineAt 9, lineAt 18]).prevOpAddr
      (windowOf [16, 17] 16 17 16).topOffset (windowOf [16, 17] 16 17 16).maxLines
      ≤ (windowOf [16, 17] 16 17 16).topOffset ∧
    pageOffset (envOf [lineAt 3, lineAt 5, lineAt 5, lineAt 9, lineAt 18])
      (windowOf [16, 17] 16 17 16) true = .ok 9 ∧
    ∃ j : Nat,
      pageOffset (envOf [lineAt 3, lineAt 5, lineAt 5, lineAt 9, lineAt 18])
        (windowOf [16, 17] 16 17 16) true
        = .ok (addressAt [lineAt 3, lineAt 5, lineAt 5, lineAt 9, lineAt 18] j) ∧
      4 - 2 ≤ j ∧ j ≤ 4 ∧ j < [lineAt 3, lineAt 5, lineAt 5, lineAt 9, lineAt 18].length ∧
      (∀ i, 4 - 2 ≤ i → i < j →
        addressAt [lineAt 3, lineAt 5, lineAt 5, lineAt 9, lineAt 18] (i - 1)
          = addressAt [lineAt 3, lineAt 5, lineAt 5, lineAt 9, lineAt 18] i) ∧
      (j < [lineAt 3, lineAt 5, lineAt 5, lineAt 9, lineAt 18].length - 1 →
        addressAt [lineAt 3, lineAt 5, lineAt 5, lineAt 9, lineAt 18] (j - 1)
          ≠ addressAt [lineAt 3, lineAt 5, lineAt 5, lineAt 9, lineAt 18] j) ∧
      (j = 4 - 2 → 4 - j = 2) ∧
      (4 - 2 < j → 4 - j < 2) :=
  ⟨rfl, by decide, by decide, rfl,
    pageUp_correction (envOf [lineAt 3, lineAt 5, lineAt 5, lineAt 9, lineAt 18])
      (windowOf [16, 17] 16 17 16) 2 4 [lineAt 3, lineAt 5, lineAt 5, lineAt 9, lineAt 18]
      rfl (by decide) (by decide) rfl (by decide) (by decide) (by decide) (by decide)⟩

/-- C6, the code at the failing input.  `maxLines = 2`, old `topOffset = 16`; the candidate is
5 and the fetched lines have the addresses 5, 5, 5, 18.  The last line below the old top has
index 2, so three lines (more than `maxLines`) reach up to it (`oldTopLine = 3`); the
correction starts at index 1, skips the lines at indices 1 and 2, which repeat the address of
their predecessor, and stops at index 3 because it is the last index of the vector.  The
refresh is requested at address 18, above the old top: the number of fetched lines from index
3 up to the last line below the old top is 0, not at least 1. -/
theorem pageUp_correction_skips_past_old_top :
    (windowOf [16, 17] 16 17 16).maxLines = 2 ∧
    (envAt 5 [lineAt 5, lineAt 5, lineAt 5, lineAt 18]).prevOpAddr
      (windowOf [16, 17] 16 17 16).topOffset (windowOf [16, 17] 16 17 16).maxLines
      ≤ (windowOf [16, 17] 16 17 16).topOffset ∧
    oldTopLineLoop [lineAt 5, lineAt 5, lineAt 5, lineAt 18]
      (windowOf [16, 17] 16 17 16).topOffset 4 = .ok 3 ∧
    skipDuplicatesLoop [lineAt 5, lineAt 5, lineAt 5, lineAt 18] 5 (3 - 2) = .ok 3 ∧
    addressAt [lineAt 5, lineAt 5, lineAt 5, lineAt 18] 2
      < (windowOf [16, 17] 16 17 16).topOffset ∧
    (windowOf [16, 17] 16 17 16).topOffset
      ≤ addressAt [lineAt 5, lineAt 5, lineAt 5, lineAt 18] 3 ∧
    pageOffset (envAt 5 [lineAt 5, lineAt 5, lineAt 5, lineAt 18]) (windowOf [16, 17] 16 17 16)
      true = .ok 18 ∧
    moveCursorRelative (envAt 5 [lineAt 5, lineAt 5, lineAt 5, lineAt 18])
      (windowOf [16, 17] 16 17 16) true true
      = .ok (refreshDisasm (envAt 5 [lineAt 5, lineAt 5, lineAt 5, lineAt 18])
          (windowOf [16, 17] 16 17 16) 18) ∧
    ∀ j, j < [lineAt 5, lineAt 5, lineAt 5, lineAt 18].length →
      addressAt [lineAt 5, lineAt 5, lineAt 5, lineAt 18] j = 18 → 3 - j = 0 :=
  ⟨rfl, by decide, rfl, rfl, by decide, by decide, rfl, rfl, by decide⟩

/-! ## The jump overlay -/

theorem rowOf_ne (penv : PanelEnv) (hFont : 0 ≤ penv.fontHeight) (i : Nat) :
    rowOf penv i ≠ -1 := by
  unfold rowOf
  have h : 0 ≤ (i : Int) * (penv.fontHeight + 1) :=
    mul_nonneg (Int.ofNat_nonneg i) (by omega)
  omega

theorem precomputeLoop_absent (lineHeight tmpBaseOffset : Int) (ls : List DisassemblyLine)
    (i : Int) (m : PixMap) (a : Nat) (h : ∀ l ∈ ls, l.offset ≠ a) :
    precomputeLoop lineHeight tmpBaseOffset ls i m a = m a := by
  induction ls generalizing i m with
  | nil => rfl
  | cons l rest ih =>
    simp only [precomputeLoop]
    rw [ih _ _ (fun x hx => h x (List.mem_cons_of_mem _ hx))]
    have := h l (List.mem_cons_self _ _)
    rw [if_neg (fun e => this e.symm)]

theorem precomputeLoop_present (lineHeight tmpBaseOffset : Int) (ls : List DisassemblyLine)
    (i : Int) (m : PixMap) (a : Nat) (h : ∃ l ∈ ls, l.offset = a) :
    ∃ j : Nat, j < ls.length ∧ addressAt ls j = a ∧
      precomputeLoop lineHeight tmpBaseOffset ls i m a
        = some ((i + j) * lineHeight + tmpBaseOffset) := by
  induction ls generalizing i m with
  | nil => simp at h
  | cons l rest ih =>
    simp only [precomputeLoop]
    by_cases hr : ∃ x ∈ rest, x.offset = a
    · obtain ⟨j, hj, ha, hv⟩ := ih (i + 1)
        (fun b => if b = l.offset then some (i * lineHeight + tmpBaseOffset) else m b) hr
      refine ⟨j + 1, by simpa using hj, ?_, ?_⟩
      · simpa [addressAt] using ha
      · rw [hv]
        push_cast
        ring_nf
    · have hl : l.offset = a := by
        obtain ⟨x, hx, hxa⟩ := h
        rcases List.mem_cons.mp hx with e | e
        · rw [← e]; exact hxa
        · exact absurd ⟨x, e, hxa⟩ hr
      refine ⟨0, by simp, by simpa [addressAt] using hl, ?_⟩
      rw [precomputeLoop_absent _ _ _ _ _ _ (fun x hx e => hr ⟨x, hx, e⟩)]
      simp [hl]

theorem paintLine_skip (penv : PanelEnv) (pix : PixMap) (st : PaintState) (l : DisassemblyLine)
    (h : l.arrow = 0) : paintLine penv pix st l = ([], st) := by
  unfold paintLine
  rw [if_pos h]

theorem paintLine_visible (penv : PanelEnv) (pix : PixMap) (st : PaintState)
    (l : DisassemblyLine) (y : Int) (h : l.arrow ≠ 0) (hy : pix l.arrow = some y)
    (hne : y ≠ -1) :
    paintLine penv pix st l =
      ([.drawLine penv.width ((pix l.offset).getD 0) (penv.width - st.lineOffset)
          ((pix l.offset).getD 0),
        .drawLine (penv.width - st.lineOffset) ((pix l.offset).getD 0)
          (penv.width - st.lineOffset) y,
        .drawLine (penv.width - st.lineOffset) y penv.width y,
        .drawConvexPolygon (arrowhead penv y)],
       { arrow := arrowhead penv y, lineOffset := st.lineOffset + 10 }) := by
  unfold paintLine arrowhead
  rw [if_neg h]
  simp [hy, hne]

theorem paintLine_hidden (penv : PanelEnv) (pix : PixMap) (st : PaintState)
    (l : DisassemblyLine) (h : l.arrow ≠ 0) (hy : (pix l.arrow).getD (-1) = -1) :
    paintLine penv pix st l =
      ([.drawLine penv.width ((pix l.offset).getD 0) (penv.width - st.lineOffset)
          ((pix l.offset).getD 0),
        .drawLine (penv.width - st.lineOffset) ((pix l.offset).getD 0)
          (penv.width - st.lineOffset)
          (if l.arrow > penv.currentOffset then 0 else penv.height),
        .drawConvexPolygon st.arrow],
       { arrow := st.arrow, lineOffset := st.lineOffset + 10 }) := by
  unfold paintLine
  rw [if_neg h]
  by_cases hd : l.arrow > penv.currentOffset <;> simp [hy, hd]

theorem paintLine_state (penv : PanelEnv) (pix : PixMap) (st : PaintState)
    (l : DisassemblyLine) :
    (paintLine penv pix st l).2.lineOffset
        = st.lineOffset + 10 * (([l].filter fun l => !decide (l.arrow = 0)).length : Int) ∧
      ((paintLine penv pix st l).2.arrow = st.arrow ∨
        (l.arrow ≠ 0 ∧ ∃ y, pix l.arrow = some y ∧ y ≠ -1 ∧
          (paintLine penv pix st l).2.arrow = arrowhead penv y ∧
          PaintCommand.drawConvexPolygon (paintLine penv pix st l).2.arrow
            ∈ (paintLine penv pix st l).1)) := by
  by_cases h : l.arrow = 0
  · rw [paintLine_skip penv pix st l h]
    simp [h]
  · by_cases hy : (pix l.arrow).getD (-1) = -1
    · rw [paintLine_hidden penv pix st l h hy]
      simp [h]
    · cases hp : pix l.arrow with
      | none => simp [hp] at hy
      | some y =>
        have hne : y ≠ -1 := by simpa [hp] using hy
        rw [paintLine_visible penv pix st l y h hp hne]
        refine ⟨by simp [h], Or.inr ⟨h, y, rfl, hne, rfl, by simp⟩⟩

theorem paintLoop_round (penv : PanelEnv) (pix : PixMap) (ls : List DisassemblyLine)
    (st : PaintState) (k : Nat) (hk : k < ls.length) :
    ∃ stk : PaintState,
      (paintLoop penv pix ls st)[k]?
        = some (ls.getD k default, (paintLine penv pix stk (ls.getD k default)).1) ∧
      stk.lineOffset
        = st.lineOffset + 10 * (((ls.take k).filter fun l => !decide (l.arrow = 0)).length : Int) ∧
      (stk.arrow = st.arrow ∨
        ∃ k', k' < k ∧ (ls.getD k' default).arrow ≠ 0 ∧
          ∃ y, pix (ls.getD k' default).arrow = some y ∧ y ≠ -1 ∧ stk.arrow = arrowhead penv y ∧
            PaintCommand.drawConvexPolygon stk.arrow
              ∈ (((paintLoop penv pix ls st).take k).map Prod.snd).flatten) := by
  induction ls generalizing st k with
  | nil => simp at hk
  | cons l rest ih =>
    cases k with
    | zero =>
      refine ⟨st, ?_, by simp, Or.inl rfl⟩
      simp [paintLoop]
    | succ k =>
      have hk1 : k < rest.length := by simpa using hk
      obtain ⟨stk, h1, h2, h3⟩ := ih (paintLine penv pix st l).2 k hk1
      obtain ⟨s1, s2⟩ := paintLine_state penv pix st l
      refine ⟨stk, ?_, ?_, ?_⟩
      · simpa [paintLoop] using h1
      · rw [h2, s1]
        simp only [List.take_succ_cons, List.filter_cons, List.filter_nil]
        by_cases h : l.arrow = 0
        · simp [h]
        · simp [h]; ring
      · rcases h3 with h3 | ⟨k', hk', hj, y, hy, hne, ha, hmem⟩
        · rcases s2 with s2 | ⟨hj, y, hy, hne, ha, hmem⟩
          · exact Or.inl (h3.trans s2)
          · refine Or.inr ⟨0, by omega, by simpa using hj, y, by simpa using hy, hne,
              by rw [h3]; exact ha, ?_⟩
            rw [h3]
            simp only [paintLoop, List.take_succ_cons, List.map_cons, List.flatten_cons,
              List.mem_append]
            exact Or.inl hmem
        · refine Or.inr ⟨k' + 1, by omega, by simpa using hj, y, by simpa using hy, hne, ha, ?_⟩
          simp only [paintLoop, List.take_succ_cons, List.map_cons, List.flatten_cons,
            List.mem_append]
          exact Or.inr hmem

theorem picture_append (a b : List PaintCommand) : picture (a ++ b) = picture a ∪ picture b := by
  simp [picture, List.filter_append, List.toFinset_append]

theorem picture_repaint (before : List PaintCommand) (arrow : List (Int × Int))
    (h : arrow = [] ∨ PaintCommand.drawConvexPolygon arrow ∈ before) :
    picture [PaintCommand.drawConvexPolygon arrow] ⊆ picture before := by
  intro c hc
  simp only [picture, List.mem_toFinset, List.mem_filter, List.mem_singleton] at hc ⊢
  obtain ⟨hc1, hc2⟩ := hc
  rcases h with h | h
  · subst h; subst hc1; simp at hc2
  · subst hc1; exact ⟨h, hc2⟩

theorem picture_round (before : List PaintCommand) (a b c : PaintCommand)
    (h : picture [c] ⊆ picture before) :
    picture (before ++ [a, b, c]) = picture before ∪ picture [a, b] := by
  have e : [a, b, c] = [a, b] ++ [c] := rfl
  rw [e, picture_append, picture_append, ← Finset.union_assoc,
    Finset.union_right_comm, Finset.union_eq_left.mpr h]

theorem paintedBefore_succ (penv : PanelEnv) (lines : List DisassemblyLine) (k : Nat)
    (l : DisassemblyLine) (commands : List PaintCommand)
    (h : (paintEvent penv lines)[k]? = some (l, commands)) :
    paintedBefore penv lines (k + 1) = paintedBefore penv lines k ++ commands := by
  unfold paintedBefore
  rw [List.take_succ, h]
  simp

theorem pixPosition_spec (penv : PanelEnv) (lines : List DisassemblyLine) (a : Nat) :
    (∃ i, i < lines.length ∧ addressAt lines i = a ∧
      precomputeLoop (penv.fontHeight + 1) (penv.fontHeight + 1 + 5) lines 0 (fun _ => none) a
        = some (rowOf penv i)) ∨
    ((∀ i, i < lines.length → addressAt lines i ≠ a) ∧
      precomputeLoop (penv.fontHeight + 1) (penv.fontHeight + 1 + 5) lines 0 (fun _ => none) a
        = none) := by
  by_cases h : ∃ l ∈ lines, l.offset = a
  · obtain ⟨j, hj, ha, hv⟩ := precomputeLoop_present (penv.fontHeight + 1)
      (penv.fontHeight + 1 + 5) lines 0 (fun _ => none) a h
    refine Or.inl ⟨j, hj, ha, ?_⟩
    rw [hv]
    simp [rowOf]
  · refine Or.inr ⟨?_, ?_⟩
    · intro i hi e
      apply h
      refine ⟨lines.getD i default, ?_, e⟩
      rw [List.getD_eq_getElem lines default hi]
      exact List.getElem_mem hi
    · rw [precomputeLoop_absent _ _ _ _ _ _ (fun x hx e => h ⟨x, hx, e⟩)]

/-- C8. Jump overlay.  For every panel with a font height that is not negative and every list
of window lines, `paintEvent` gives for the line with index `k`, when it has a jump target
(`arrow != 0`), commands that start at the pixel row of a line with its address, in the column
of its rank among the lines with a target.  When the target address is the address of a line of
the window, the commands are the three segments of a full connector that ends at the pixel row
of a line with the target address, and the arrowhead at that row.  When no line of the window
has the target address, the commands are two segments that run to the top edge (row 0) or the
bottom edge (the height of the panel), and one polygon that is not an arrowhead for this line:
it has no points, or it is the arrowhead that the round of an earlier line with a target in the
window has painted at the row of that target; the shapes on the panel after the round are those
before it and the two segments. -/
theorem paintEvent_jump_overlay (penv : PanelEnv) (lines : List DisassemblyLine) (k : Nat)
    (hFont : 0 ≤ penv.fontHeight) (hk : k < lines.length)
    (hJump : (lines.getD k default).arrow ≠ 0) :
    ∃ (own : Nat) (commands : List PaintCommand),
      own < lines.length ∧ addressAt lines own = addressAt lines k ∧
      (paintEvent penv lines)[k]? = some (lines.getD k default, commands) ∧
      ((∃ i, i < lines.length ∧ addressAt lines i = (lines.getD k default).arrow) →
        ∃ i, i < lines.length ∧ addressAt lines i = (lines.getD k default).arrow ∧
          commands =
            [.drawLine penv.width (rowOf penv own) (connectorColumn penv lines k)
               (rowOf penv own),
             .drawLine (connectorColumn penv lines k) (rowOf penv own)
               (connectorColumn penv lines k) (rowOf penv i),
             .drawLine (connectorColumn penv lines k) (rowOf penv i) penv.width (rowOf penv i),
             .drawConvexPolygon (arrowhead penv (rowOf penv i))]) ∧
      ((∀ i, i < lines.length → addressAt lines i ≠ (lines.getD k default).arrow) →
        ∃ (edge : Int) (arrow : List (Int × Int)),
          (edge = 0 ∨ edge = penv.height) ∧
          commands =
            [.drawLine penv.width (rowOf penv own) (connectorColumn penv lines k)
               (rowOf penv own),
             .drawLine (connectorColumn penv lines k) (rowOf penv own)
               (connectorColumn penv lines k) edge,
             .drawConvexPolygon arrow] ∧
          (arrow = [] ∨
            ∃ k' i, k' < k ∧ (lines.getD k' default).arrow ≠ 0 ∧ i < lines.length ∧
              addressAt lines i = (lines.getD k' default).arrow ∧
              arrow = arrowhead penv (rowOf penv i) ∧
              PaintCommand.drawConvexPolygon arrow ∈ paintedBefore penv lines k) ∧
          picture (paintedBefore penv lines (k + 1))
            = picture (paintedBefore penv lines k) ∪
              picture
                [.drawLine penv.width (rowOf penv own) (connectorColumn penv lines k)
                   (rowOf penv own),
                 .drawLine (connectorColumn penv lines k) (rowOf penv own)
                   (connectorColumn penv lines k) edge]) := by
  obtain ⟨stk, h1, h2, h3⟩ := paintLoop_round penv
    (precomputeLoop (penv.fontHeight + 1) (penv.fontHeight + 1 + 5) lines 0 (fun _ => none))
    lines { arrow := [], lineOffset := 10 } k hk
  have hEv : (paintEvent penv lines)[k]?
      = some (lines.getD k default,
          (paintLine penv
            (precomputeLoop (penv.fontHeight + 1) (penv.fontHeight + 1 + 5) lines 0
              (fun _ => none)) stk (lines.getD k default)).1) := h1
  have hCol : penv.width - stk.lineOffset = connectorColumn penv lines k := by
    rw [h2]; rfl
  -- the row of the line itself
  obtain ⟨own, hown, hownA, hownV⟩ : ∃ own, own < lines.length ∧
      addressAt lines own = addressAt lines k ∧
      precomputeLoop (penv.fontHeight + 1) (penv.fontHeight + 1 + 5) lines 0 (fun _ => none)
        (lines.getD k default).offset = some (rowOf penv own) := by
    rcases pixPosition_spec penv lines (lines.getD k default).offset with h | h
    · exact h
    · exact absurd rfl (h.1 k hk)
  refine ⟨own, _, hown, hownA, hEv, ?_, ?_⟩
  · intro hIn
    rcases pixPosition_spec penv lines (lines.getD k default).arrow with h | h
    · obtain ⟨i, hi, hia, hiv⟩ := h
      refine ⟨i, hi, hia, ?_⟩
      rw [paintLine_visible penv _ stk _ (rowOf penv i) hJump hiv (rowOf_ne penv hFont i)]
      simp only [hownV, Option.getD_some, hCol]
    · obtain ⟨i, hi, hia⟩ := hIn
      exact absurd hia (h.1 i hi)
  · intro hOut
    rcases pixPosition_spec penv lines (lines.getD k default).arrow with h | h
    · obtain ⟨i, hi, hia, _⟩ := h
      exact absurd hia (hOut i hi)
    · have hy : ((precomputeLoop (penv.fontHeight + 1) (penv.fontHeight + 1 + 5) lines 0
          (fun _ => none)) (lines.getD k default).arrow).getD (-1) = -1 := by
        rw [h.2]; rfl
      have hCmd := paintLine_hidden penv _ stk _ hJump hy
      simp only [hownV, Option.getD_some, hCol] at hCmd
      have hArrow : stk.arrow = [] ∨
          ∃ k' i, k' < k ∧ (lines.getD k' default).arrow ≠ 0 ∧ i < lines.length ∧
            addressAt lines i = (lines.getD k' default).arrow ∧
            stk.arrow = arrowhead penv (rowOf penv i) ∧
            PaintCommand.drawConvexPolygon stk.arrow ∈ paintedBefore penv lines k := by
        rcases h3 with h3 | ⟨k', hk', hj, y, hpy, _, ha, hmem⟩
        · exact Or.inl h3
        · rcases pixPosition_spec penv lines (lines.getD k' default).arrow with h' | h'
          · obtain ⟨i, hi, hia, hiv⟩ := h'
            rw [hiv] at hpy
            have hyi : rowOf penv i = y := Option.some.inj hpy
            exact Or.inr ⟨k', i, hk', hj, hi, hia, by rw [hyi]; exact ha, hmem⟩
          · rw [h'.2] at hpy
            exact absurd hpy (by simp)
      refine ⟨if (lines.getD k default).arrow > penv.currentOffset then 0 else penv.height,
        stk.arrow, ?_, ?_, hArrow, ?_⟩
      · by_cases hd : (lines.getD k default).arrow > penv.currentOffset
        · exact Or.inl (if_pos hd)
        · exact Or.inr (if_neg hd)
      · rw [hCmd]
      · have hEv2 := hEv
        rw [hCmd] at hEv2
        rw [paintedBefore_succ penv lines k _ _ hEv2]
        apply picture_round
        apply picture_repaint
        rcases hArrow with h | ⟨_, _, _, _, _, _, _, hmem⟩
        · exact Or.inl h
        · exact Or.inr hmem

/-- C8 on the panel `samplePanel` for the second line of `sampleJumps`, whose target 999 is not
in the window, after a first line whose target is. -/
theorem paintEvent_jump_overlay_witness :
    0 ≤ samplePanel.fontHeight ∧ 1 < sampleJumps.length ∧
    (sampleJumps.getD 1 default).arrow ≠ 0 ∧
    ∃ (own : Nat) (commands : List PaintCommand),
      own < sampleJumps.length ∧ addressAt sampleJumps own = addressAt sampleJumps 1 ∧
      (paintEvent samplePanel sampleJumps)[1]? = some (sampleJumps.getD 1 default, commands) ∧
      ((∃ i, i < sampleJumps.length ∧
          addressAt sampleJumps i = (sampleJumps.getD 1 default).arrow) →
        ∃ i, i < sampleJumps.length ∧
          addressAt sampleJumps i = (sampleJumps.getD 1 default).arrow ∧
          commands =
            [.drawLine samplePanel.width (rowOf samplePanel own)
               (connectorColumn samplePanel sampleJumps 1) (rowOf samplePanel own),
             .drawLine (connectorColumn samplePanel sampleJumps 1) (rowOf samplePanel own)
               (connectorColumn samplePanel sampleJumps 1) (rowOf samplePanel i),
             .drawLine (connectorColumn samplePanel sampleJumps 1) (rowOf samplePanel i)
               samplePanel.width (rowOf samplePanel i),
             .drawConvexPolygon (arrowhead samplePanel (rowOf samplePanel i))]) ∧
      ((∀ i, i < sampleJumps.length →
          addressAt sampleJumps i ≠ (sampleJumps.getD 1 default).arrow) →
        ∃ (edge : Int) (arrow : List (Int × Int)),
          (edge = 0 ∨ edge = samplePanel.height) ∧
          commands =
            [.drawLine samplePanel.width (rowOf samplePanel own)
               (connectorColumn samplePanel sampleJumps 1) (rowOf samplePanel own),
             .drawLine (connectorColumn samplePanel sampleJumps 1) (rowOf samplePanel own)
               (connectorColumn samplePanel sampleJumps 1) edge,
             .drawConvexPolygon arrow] ∧
          (arrow = [] ∨
            ∃ k' i, k' < 1 ∧ (sampleJumps.getD k' default).arrow ≠ 0 ∧ i < sampleJumps.length ∧
              addressAt sampleJumps i = (sampleJumps.getD k' default).arrow ∧
              arrow = arrowhead samplePanel (rowOf samplePanel i) ∧
              PaintCommand.drawConvexPolygon arrow ∈ paintedBefore samplePanel sampleJumps 1) ∧
          picture (paintedBefore samplePanel sampleJumps (1 + 1))
            = picture (paintedBefore samplePanel sampleJumps 1) ∪
              picture
                [.drawLine samplePanel.width (rowOf samplePanel own)
                   (connectorColumn samplePanel sampleJumps 1) (rowOf samplePanel own),
                 .drawLine (connectorColumn samplePanel sampleJumps 1) (rowOf samplePanel own)
                   (connectorColumn samplePanel sampleJumps 1) edge]) :=
  ⟨by decide, by decide, by decide,
    paintEvent_jump_overlay samplePanel sampleJumps 1 (by decide) (by decide) (by decide)⟩

/-- The shapes on `samplePanel` for `sampleJumps`: the full connector of the first line with the
arrowhead at the row of the second line, and the two segments of the second line to the top
edge; the round of the second line adds its two segments and nothing else. -/
theorem paintEvent_sample_picture :
    picture (paintedBefore samplePanel sampleJumps 2)
      = {.drawLine 100 16 90 16, .drawLine 90 16 90 27, .drawLine 90 27 100 27,
         .drawConvexPolygon [(97, 30), (97, 24), (100, 27)],
         .drawLine 100 27 80 27, .drawLine 80 27 80 0} ∧
    picture (paintedBefore samplePanel sampleJumps 2)
      = picture (paintedBefore samplePanel sampleJumps 1) ∪
          {.drawLine 100 27 80 27, .drawLine 80 27 80 0} := by
  decide

/-- The commands of `paintEvent` for two lines: the first, at address 16, jumps to address 17
(the second line, in the window, pixel row 27); the second, at 17, jumps to address 999, which
no line of the window has.  In the round of the second line the connector runs to the top edge
(row 0), and `drawConvexPolygon` is called with the polygon that the round of the first line
left in `arrow`, which is on the panel already. -/
theorem paintEvent_repaints_arrowhead :
    paintEvent samplePanel
        [{ offset := 16, text := "", arrow := 17 }, { offset := 17, text := "", arrow := 999 }]
      = [({ offset := 16, text := "", arrow := 17 },
          [.drawLine 100 16 90 16, .drawLine 90 16 90 27, .drawLine 90 27 100 27,
           .drawConvexPolygon [(97, 30), (97, 24), (100, 27)]]),
         ({ offset := 17, text := "", arrow := 999 },
          [.drawLine 100 27 80 27, .drawLine 80 27 80 0,
           .drawConvexPolygon [(97, 30), (97, 24), (100, 27)]])] := by
  decide

/-! ## Refresh without capacity -/

theorem requestedTop_invalid (w : DisassemblyWidget) (offset : Nat)
    (h : requestedTop w offset = RVA_INVALID) : offset = RVA_INVALID ∧ w.topOffset = RVA_INVALID := by
  unfold requestedTop at h
  by_cases ho : offset = RVA_INVALID
  · exact ⟨ho, by simpa [ho] using h⟩
  · simp [ho] at h

theorem refreshDisasm_topOffset_invalid (env : Env) (w : DisassemblyWidget) (offset : Nat)
    (h : (refreshDisasm env w offset).topOffset = RVA_INVALID) :
    refreshDisasm env w offset = w := by
  rw [refreshDisasm_eq] at h ⊢
  by_cases ha : env.attemptRefresh (if offset = RVA_INVALID then none else some offset) = true
  · rw [if_pos ha] at h ⊢
    by_cases ht : requestedTop w offset = RVA_INVALID
    · rw [if_pos ht]
    · rw [if_neg ht] at h ⊢
      exfalso
      by_cases hm : w.maxLines ≤ 0
      · rw [if_pos hm] at h
        exact ht h
      · rw [if_neg hm] at h
        exact ht (((updateCursorPosition_frame env _).2.1.trans (render_spec env _).2.1).symm.trans h)
  · rw [if_neg ha]

theorem emptyUntilLoaded_refreshDisasm (env : Env) (w : DisassemblyWidget) (offset : Nat)
    (h : emptyUntilLoaded w) : emptyUntilLoaded (refreshDisasm env w offset) := by
  intro ht
  have := refreshDisasm_topOffset_invalid env w offset ht
  rw [this] at ht ⊢
  exact h ht

theorem emptyUntilLoaded_of_eq (v w : DisassemblyWidget) (ht : v.topOffset = w.topOffset)
    (hb : v.blocks = w.blocks) (h : emptyUntilLoaded w) : emptyUntilLoaded v := by
  intro hv
  rw [hb]
  exact h (ht ▸ hv)

theorem emptyUntilLoaded_updateCursorPosition (env : Env) (w : DisassemblyWidget)
    (h : emptyUntilLoaded w) : emptyUntilLoaded (updateCursorPosition env w) :=
  emptyUntilLoaded_of_eq _ w (updateCursorPosition_frame env w).2.1
    (updateCursorPosition_frame env w).1 h

theorem emptyUntilLoaded_on_seekChanged (env : Env) (w : DisassemblyWidget) (offset : Nat)
    (h : emptyUntilLoaded w) : emptyUntilLoaded (on_seekChanged env w offset) := by
  have h1 : emptyUntilLoaded (if !w.seekFromCursor then { w with cursorLineOffset := 0 } else w) := by
    cases w.seekFromCursor
    · exact h
    · exact h
  unfold on_seekChanged
  simp only
  split_ifs
  · exact emptyUntilLoaded_updateCursorPosition env _ h
  · exact emptyUntilLoaded_refreshDisasm env _ offset h
  · exact emptyUntilLoaded_updateCursorPosition env _ h
  · exact emptyUntilLoaded_refreshDisasm env _ offset h

theorem emptyUntilLoaded_seek (env : Env) (w : DisassemblyWidget) (offset : Nat)
    (h : emptyUntilLoaded w) : emptyUntilLoaded (seek env w offset) :=
  emptyUntilLoaded_on_seekChanged env _ offset h

theorem emptyUntilLoaded_cursorPositionChanged (env : Env) (w : DisassemblyWidget)
    (h : emptyUntilLoaded w) : emptyUntilLoaded (cursorPositionChanged env w) := by
  unfold cursorPositionChanged
  exact emptyUntilLoaded_seek env _ _ h

theorem emptyUntilLoaded_emit (env : Env) (w : DisassemblyWidget)
    (h : emptyUntilLoaded w) : emptyUntilLoaded (emitCursorPositionChanged env w) := by
  unfold emitCursorPositionChanged
  split_ifs
  · exact h
  · exact emptyUntilLoaded_cursorPositionChanged env w h

theorem emptyUntilLoaded_scrollInstructions (env : Env) (w : DisassemblyWidget) (count : Int)
    (h : emptyUntilLoaded w) : emptyUntilLoaded (scrollInstructions env w count) := by
  unfold scrollInstructions
  split_ifs
  · exact h
  · exact emptyUntilLoaded_refreshDisasm env w _ h

theorem emptyUntilLoaded_moveCursor (env : Env) (w : DisassemblyWidget) (up : Bool)
    (h : emptyUntilLoaded w) : emptyUntilLoaded (moveCursor env w up) := by
  unfold moveCursor
  split_ifs
  · exact h
  · exact emptyUntilLoaded_emit env _ h
  · exact emptyUntilLoaded_emit env _ h
  · exact h

theorem emptyUntilLoaded_moveCursorRelative (env : Env) (w w' : DisassemblyWidget)
    (up page : Bool) (h : emptyUntilLoaded w) (hr : moveCursorRelative env w up page = .ok w') :
    emptyUntilLoaded w' := by
  unfold moveCursorRelative at hr
  cases page with
  | true =>
    simp only [if_true] at hr
    cases hp : pageOffset env w up with
    | error e => rw [hp] at hr; cases hr
    | ok offset =>
      rw [hp] at hr
      cases hr
      exact emptyUntilLoaded_refreshDisasm env w offset h
  | false =>
    simp only [Bool.false_eq_true, if_false] at hr
    have hw1 : emptyUntilLoaded
        (if w.cursor = w.blocks.length - 1 ∧ (!up) = true then scrollInstructions env w 1
          else if w.cursor = 0 ∧ up = true then scrollInstructions env w (-1) else w) := by
      split_ifs
      · exact emptyUntilLoaded_scrollInstructions env w 1 h
      · exact emptyUntilLoaded_scrollInstructions env w (-1) h
      · exact h
    have key : ∀ w1 : DisassemblyWidget, emptyUntilLoaded w1 →
        (if readCurrentDisassemblyOffset (moveCursor env w1 up) ≠ (moveCursor env w1 up).seekOffset
          then Except.ok (highlightCurrentLine env (seek env (moveCursor env w1 up)
            (readCurrentDisassemblyOffset (moveCursor env w1 up))))
          else (Except.ok (moveCursor env w1 up) : Except Fault DisassemblyWidget)) = .ok w' →
        emptyUntilLoaded w' := by
      intro w1 h1 hr1
      split_ifs at hr1
      · cases hr1
        exact emptyUntilLoaded_seek env _ _ (emptyUntilLoaded_moveCursor env _ up h1)
      · cases hr1
        exact emptyUntilLoaded_moveCursor env _ up h1
    by_cases hb : w.blocks.length < 1
    · rw [if_pos hb] at hr
      cases hr
      exact h
    · rw [if_neg hb] at hr
      exact key _ hw1 hr

theorem emptyUntilLoaded_of_reachable (w : DisassemblyWidget) (h : Reachable w) :
    emptyUntilLoaded w := by
  induction h with
  | constructed m s => intro _; rfl
  | refreshDisasm env offset _ ih => exact emptyUntilLoaded_refreshDisasm env _ offset ih
  | updateMaxLines env n _ ih =>
    unfold updateMaxLines
    split_ifs
    · exact emptyUntilLoaded_refreshDisasm env _ _ ih
    · exact ih
  | scrollInstructions env count _ ih => exact emptyUntilLoaded_scrollInstructions env _ count ih
  | seek env offset _ ih => exact emptyUntilLoaded_seek env _ offset ih
  | userCursor env block _ _ ih => exact emptyUntilLoaded_emit env _ ih
  | moveCursorRelative env up page _ hr ih =>
    exact emptyUntilLoaded_moveCursorRelative env _ _ up page ih hr

/-- C10. In every state reachable from the constructed widget, a refresh `refreshDisasm(offset)`
(with a requested address or with `RVA_INVALID` for none) that is run, i.e. let through by
`attemptRefresh`, while `maxLines ≤ 0` leaves the display empty (one paragraph without a line)
and fetches nothing: the stored line list and `bottomOffset` are unchanged. -/
theorem refreshDisasm_without_capacity (env : Env) (w : DisassemblyWidget) (offset : Nat)
    (hReach : Reachable w)
    (hRun : env.attemptRefresh (if offset = RVA_INVALID then none else some offset) = true)
    (hMax : w.maxLines ≤ 0) :
    (refreshDisasm env w offset).blocks = [none] ∧
    renderedLines (refreshDisasm env w offset) = [] ∧
    (refreshDisasm env w offset).lines = w.lines ∧
    (refreshDisasm env w offset).bottomOffset = w.bottomOffset := by
  have hInv := emptyUntilLoaded_of_reachable w hReach
  rw [refreshDisasm_eq, if_pos hRun]
  by_cases ht : requestedTop w offset = RVA_INVALID
  · rw [if_pos ht]
    have hb := hInv (requestedTop_invalid w offset ht).2
    exact ⟨hb, by simp [renderedLines, hb], rfl, rfl⟩
  · rw [if_neg ht, if_pos hMax]
    exact ⟨rfl, rfl, rfl, rfl⟩

/-- C10 on a reachable state whose display still holds two lines while `maxLines = 0`: the
refresh without a requested address empties the display and leaves the stored lines and
`bottomOffset` as they are. -/
theorem refreshDisasm_without_capacity_witness :
    Reachable shrunkWhileDeferred ∧
    (envOf [lineAt 16, lineAt 17]).attemptRefresh
      (if RVA_INVALID = RVA_INVALID then none else some RVA_INVALID) = true ∧
    shrunkWhileDeferred.maxLines ≤ 0 ∧
    renderedLines shrunkWhileDeferred = [lineAt 16, lineAt 17] ∧
    (refreshDisasm (envOf [lineAt 16, lineAt 17]) shrunkWhileDeferred RVA_INVALID).blocks
      = [none] ∧
    renderedLines (refreshDisasm (envOf [lineAt 16, lineAt 17]) shrunkWhileDeferred RVA_INVALID)
      = [] ∧
    (refreshDisasm (envOf [lineAt 16, lineAt 17]) shrunkWhileDeferred RVA_INVALID).lines
      = shrunkWhileDeferred.lines ∧
    (refreshDisasm (envOf [lineAt 16, lineAt 17]) shrunkWhileDeferred RVA_INVALID).bottomOffset
      = shrunkWhileDeferred.bottomOffset :=
  ⟨Reachable.updateMaxLines deferringEnv 0
      (Reachable.refreshDisasm (envOf [lineAt 16, lineAt 17]) 16 (Reachable.constructed 3 0)),
    rfl, by decide, by decide,
    refreshDisasm_without_capacity (envOf [lineAt 16, lineAt 17]) shrunkWhileDeferred RVA_INVALID
      (Reachable.updateMaxLines deferringEnv 0
        (Reachable.refreshDisasm (envOf [lineAt 16, lineAt 17]) 16 (Reachable.constructed 3 0)))
      rfl (by decide)⟩

/-! ## Page-up: no correction, reads in range, direction -/

theorem oldTopLineLoop_total (lines : List DisassemblyLine) (topOffset : Nat) (n : Nat)
    (hn : n ≤ lines.length) :
    ∃ T : Nat, oldTopLineLoop lines topOffset n = .ok (T : Int) ∧ T ≤ n ∧
      (0 < T → addressAt lines (T - 1) < topOffset) ∧
      (∀ i, T ≤ i → i < n → topOffset ≤ addressAt lines i) := by
  induction n with
  | zero => exact ⟨0, rfl, le_refl _, fun h => absurd h (by omega), fun i _ h => absurd h (by omega)⟩
  | succ n ih =>
    have hv : vectorAt lines (((n + 1 : Nat) : Int) - 1) = .ok (lines.getD n default) := by
      have : (((n + 1 : Nat) : Int) - 1) = (n : Int) := by omega
      rw [this]
      exact vectorAt_of_lt lines n (by omega)
    simp only [oldTopLineLoop, hv]
    by_cases hb : (lines.getD n default).offset < topOffset
    · rw [if_pos hb]
      exact ⟨n + 1, rfl, le_refl _, fun _ => hb, fun i h1 h2 => absurd h2 (by omega)⟩
    · rw [if_neg hb]
      obtain ⟨T, h1, h2, h3, h4⟩ := ih (by omega)
      refine ⟨T, h1, by omega, h3, ?_⟩
      intro i hi1 hi2
      rcases Nat.lt_or_ge i n with hlt | hge
      · exact h4 i hi1 hlt
      · have : i = n := by omega
        rw [this]
        unfold addressAt
        omega

theorem skipDuplicatesLoop_fuel (lines : List DisassemblyLine) (fuel : Nat) (m j : Int)
    (h : skipDuplicatesLoop lines fuel m = .ok j) :
    skipDuplicatesLoop lines (fuel + 1) m = .ok j := by
  induction fuel generalizing m with
  | zero => simp [skipDuplicatesLoop] at h
  | succ fuel ih =>
    rw [skipDuplicatesLoop] at h
    rw [skipDuplicatesLoop]
    cases h1 : vectorAt lines (m - 1) with
    | error e => rw [h1] at h; simp at h
    | ok a =>
      cases h2 : vectorAt lines m with
      | error e => rw [h1, h2] at h; simp at h
      | ok b =>
        rw [h1, h2] at h
        simp only at h ⊢
        split_ifs at h ⊢ with hc
        · exact ih _ h
        · exact h

theorem skipDuplicatesLoop_fuel_le (lines : List DisassemblyLine) (fuel fuel' : Nat) (m j : Int)
    (hle : fuel ≤ fuel') (h : skipDuplicatesLoop lines fuel m = .ok j) :
    skipDuplicatesLoop lines fuel' m = .ok j := by
  induction fuel' with
  | zero =>
    have : fuel = 0 := by omega
    rw [this] at h
    exact h
  | succ k ih =>
    rcases Nat.eq_or_lt_of_le hle with hEq | hLt
    · rw [← hEq]; exact h
    · exact skipDuplicatesLoop_fuel lines k m j (ih (by omega))

theorem pageUpCorrection_overflow (env : Env) (w : DisassemblyWidget) (candidate T : Nat)
    (hMax : 1 ≤ w.maxLines)
    (hT : T ≤ (env.disassembleLines candidate w.maxLines).length)
    (hOver : (T : Int) - w.maxLines > 0) :
    ∃ j : Nat, j < (env.disassembleLines candidate w.maxLines).length ∧
      (T : Int) - w.maxLines ≤ (j : Int) ∧
      skipDuplicatesLoop (env.disassembleLines candidate w.maxLines)
        ((env.disassembleLines candidate w.maxLines).length + 1) ((T : Int) - w.maxLines)
        = .ok (j : Int) ∧
      (∀ i : Nat, (T : Int) - w.maxLines ≤ (i : Int) → i < j →
        addressAt (env.disassembleLines candidate w.maxLines) (i - 1)
          = addressAt (env.disassembleLines candidate w.maxLines) i) := by
  obtain ⟨N, hN⟩ : ∃ N : Nat, w.maxLines = (N : Int) := ⟨w.maxLines.toNat, by omega⟩
  have hov : ((T : Int) - w.maxLines) = ((T - N : Nat) : Int) := by omega
  obtain ⟨j, h1, h2, h3, h4, -⟩ := skipDuplicatesLoop_spec
    (env.disassembleLines candidate w.maxLines)
    ((env.disassembleLines candidate w.maxLines).length + 1) (T - N)
    (by omega) (by omega) (by omega)
  refine ⟨j, h3, by omega, by rw [hov]; exact h1, ?_⟩
  intro i hi1 hi2
  exact h4 i (by omega) hi2

/-- C14. With `maxLines ≥ 1`, whatever `topOffset`, the candidate and the fetched lines, the
page-up correction ends with an address: no read of the fetched vector is out of range and the
duplicate-skipping loop ends (the same index `j`, a valid one, for every amount of fuel from
`lines.length() + 1` on). -/
theorem pageUp_reads_in_range (env : Env) (w : DisassemblyWidget) (candidate : Nat)
    (hMax : 1 ≤ w.maxLines) :
    (∃ offset, pageUpCorrection env w candidate = .ok offset) ∧
    (∃ offset, pageOffset env w true = .ok offset) ∧
    (∃ oldTopLine : Nat,
      oldTopLineLoop (env.disassembleLines candidate w.maxLines) w.topOffset
        (env.disassembleLines candidate w.maxLines).length = .ok (oldTopLine : Int) ∧
      ((oldTopLine : Int) - w.maxLines > 0 →
        ∃ j : Nat, j < (env.disassembleLines candidate w.maxLines).length ∧
          ∀ fuel, (env.disassembleLines candidate w.maxLines).length + 1 ≤ fuel →
            skipDuplicatesLoop (env.disassembleLines candidate w.maxLines) fuel
              ((oldTopLine : Int) - w.maxLines) = .ok (j : Int))) := by
  have key : ∀ c : Nat, ∃ offset, pageUpCorrection env w c = .ok offset := by
    intro c
    obtain ⟨T, h1, h2, -, -⟩ := oldTopLineLoop_total (env.disassembleLines c w.maxLines)
      w.topOffset (env.disassembleLines c w.maxLines).length (le_refl _)
    unfold pageUpCorrection
    simp only [h1]
    by_cases hOver : (T : Int) - w.maxLines > 0
    · obtain ⟨j, hj, -, hs, -⟩ := pageUpCorrection_overflow env w c T hMax h2 hOver
      rw [if_pos hOver]
      simp only [hs, vectorAt_of_lt _ j hj]
      exact ⟨_, rfl⟩
    · rw [if_neg hOver]
      exact ⟨_, rfl⟩
  refine ⟨key candidate, ?_, ?_⟩
  · unfold pageOffset
    simp only [Bool.not_true, Bool.false_eq_true, if_false]
    split_ifs
    · exact ⟨0, rfl⟩
    · exact key _
  · obtain ⟨T, h1, h2, -, -⟩ := oldTopLineLoop_total (env.disassembleLines candidate w.maxLines)
      w.topOffset (env.disassembleLines candidate w.maxLines).length (le_refl _)
    refine ⟨T, h1, ?_⟩
    intro hOver
    obtain ⟨j, hj, -, hs, -⟩ := pageUpCorrection_overflow env w candidate T hMax h2 hOver
    exact ⟨j, hj, fun fuel hf => skipDuplicatesLoop_fuel_le _ _ fuel _ _ hf hs⟩

/-- C14 with `maxLines = 2`, `topOffset = 32` and fetched addresses 40, 7, 7, 7, 50, 3 in no
order: the correction ends with the address 50 of the line with index 4. -/
theorem pageUp_reads_in_range_witness :
    1 ≤ (windowOf [32, 33] 32 33 32).maxLines ∧
    pageUpCorrection
      (envAt 16 [lineAt 40, lineAt 7, lineAt 7, lineAt 7, lineAt 50, lineAt 3])
      (windowOf [32, 33] 32 33 32) 16 = .ok 50 ∧
    ∃ offset, pageUpCorrection
      (envAt 16 [lineAt 40, lineAt 7, lineAt 7, lineAt 7, lineAt 50, lineAt 3])
      (windowOf [32, 33] 32 33 32) 16 = .ok offset :=
  ⟨by decide, rfl,
    (pageUp_reads_in_range
      (envAt 16 [lineAt 40, lineAt 7, lineAt 7, lineAt 7, lineAt 50, lineAt 3])
      (windowOf [32, 33] 32 33 32) 16 (by decide)).1⟩

/-- C13. In page-up, when the disassembler returns at most `maxLines` lines for the candidate
address `prevOpAddr(topOffset, maxLines)`, the correction does not apply: `refreshDisasm` is
called at the candidate when it is `≤ topOffset`, and at address 0 otherwise. -/
theorem pageUp_without_correction (env : Env) (w : DisassemblyWidget)
    (hLen : ((env.disassembleLines (env.prevOpAddr w.topOffset w.maxLines) w.maxLines).length
      : Int) ≤ w.maxLines) :
    (env.prevOpAddr w.topOffset w.maxLines ≤ w.topOffset →
      pageOffset env w true = .ok (env.prevOpAddr w.topOffset w.maxLines) ∧
      moveCursorRelative env w true true
        = .ok (refreshDisasm env w (env.prevOpAddr w.topOffset w.maxLines))) ∧
    (w.topOffset < env.prevOpAddr w.topOffset w.maxLines →
      pageOffset env w true = .ok 0 ∧
      moveCursorRelative env w true true = .ok (refreshDisasm env w 0)) := by
  have hmove : ∀ a, pageOffset env w true = .ok a →
      moveCursorRelative env w true true = .ok (refreshDisasm env w a) := by
    intro a ha
    unfold moveCursorRelative
    simp only [if_true, ha]
  refine ⟨?_, ?_⟩
  · intro hc
    have hp : pageOffset env w true = .ok (env.prevOpAddr w.topOffset w.maxLines) := by
      obtain ⟨T, h1, h2, -, -⟩ := oldTopLineLoop_total
        (env.disassembleLines (env.prevOpAddr w.topOffset w.maxLines) w.maxLines) w.topOffset
        (env.disassembleLines (env.prevOpAddr w.topOffset w.maxLines) w.maxLines).length
        (le_refl _)
      have hno : ¬ ((T : Int) - w.maxLines > 0) := by omega
      unfold pageOffset pageUpCorrection
      simp only [Bool.not_true, Bool.false_eq_true, if_false, if_neg (not_lt.mpr hc), h1,
        if_neg hno]
    exact ⟨hp, hmove _ hp⟩
  · intro hc
    have hp : pageOffset env w true = .ok 0 := by
      unfold pageOffset
      simp only [Bool.not_true, Bool.false_eq_true, if_false]
      rw [if_pos hc]
    exact ⟨hp, hmove _ hp⟩

/-- C13 with `maxLines = 2` and `topOffset = 32`: for the candidate 16 the disassembler returns
the two lines at 16 and 24 and the refresh is requested at 16; for the candidate 48 (above
`topOffset`, the sign of a wraparound) it is requested at 0. -/
theorem pageUp_without_correction_witness :
    (((envAt 16 [lineAt 16, lineAt 24]).disassembleLines
        ((envAt 16 [lineAt 16, lineAt 24]).prevOpAddr (windowOf [32, 33] 32 33 32).topOffset
          (windowOf [32, 33] 32 33 32).maxLines)
        (windowOf [32, 33] 32 33 32).maxLines).length : Int)
      ≤ (windowOf [32, 33] 32 33 32).maxLines ∧
    moveCursorRelative (envAt 16 [lineAt 16, lineAt 24]) (windowOf [32, 33] 32 33 32) true true
      = .ok (refreshDisasm (envAt 16 [lineAt 16, lineAt 24]) (windowOf [32, 33] 32 33 32) 16) ∧
    moveCursorRelative (envAt 48 [lineAt 48]) (windowOf [32, 33] 32 33 32) true true
      = .ok (refreshDisasm (envAt 48 [lineAt 48]) (windowOf [32, 33] 32 33 32) 0) :=
  ⟨by decide,
    ((pageUp_without_correction (envAt 16 [lineAt 16, lineAt 24]) (windowOf [32, 33] 32 33 32)
      (by decide)).1 (by decide)).2,
    ((pageUp_without_correction (envAt 48 [lineAt 48]) (windowOf [32, 33] 32 33 32)
      (by decide)).2 (by decide)).2⟩

/-- C15, the code at the failing input.  `maxLines = 2`, old `topOffset = 0x20`; the candidate
is `0x10` and the fetched lines have the non-decreasing addresses `0x10, 0x10, 0x10, 0x24`
(three lines for the instruction at `0x10`, which reaches over the old top).  Three lines lie
below the old top, the correction starts at index 1, skips the duplicates at indices 1 and 2
and takes the address of the line with index 3: the refresh is requested at `0x24`, above the
old top. -/
theorem pageUp_moves_forward :
    (windowOf [32, 33] 32 33 32).maxLines = 2 ∧
    (windowOf [32, 33] 32 33 32).topOffset = 32 ∧
    ([lineAt 16, lineAt 16, lineAt 16, lineAt 36].map DisassemblyLine.offset).Pairwise (· ≤ ·) ∧
    pageOffset (envAt 16 [lineAt 16, lineAt 16, lineAt 16, lineAt 36])
      (windowOf [32, 33] 32 33 32) true = .ok 36 ∧
    moveCursorRelative (envAt 16 [lineAt 16, lineAt 16, lineAt 16, lineAt 36])
      (windowOf [32, 33] 32 33 32) true true
      = .ok (refreshDisasm (envAt 16 [lineAt 16, lineAt 16, lineAt 16, lineAt 36])
          (windowOf [32, 33] 32 33 32) 36) ∧
    (refreshDisasm (envAt 16 [lineAt 16, lineAt 16, lineAt 16, lineAt 36])
      (windowOf [32, 33] 32 33 32) 36).topOffset = 36 ∧
    (windowOf [32, 33] 32 33 32).topOffset < 36 :=
  ⟨rfl, rfl, by decide, rfl, rfl, by decide, by decide⟩

/-! ## The fallback of `updateCursorPosition` -/

theorem scanOutcome_passed (offset : Nat) (l : List Block) (i k : Nat) (hk : k < l.length)
    (hAbove : readDisassemblyOffset l k > offset)
    (hValid : readDisassemblyOffset l k ≠ RVA_INVALID)
    (hBefore : ∀ j, j < k → readDisassemblyOffset l j ≠ offset) :
    scanOutcome offset i l = .passed := by
  induction l generalizing i k with
  | nil => simp at hk
  | cons b rest ih =>
    cases k with
    | zero =>
      have h0 : blockOffset b > offset := by simpa [readDisassemblyOffset] using hAbove
      have h1 : blockOffset b ≠ RVA_INVALID := by simpa [readDisassemblyOffset] using hValid
      have hne : blockOffset b ≠ offset := by omega
      simp only [scanOutcome, if_neg hne, if_pos (And.intro h1 h0)]
    | succ k =>
      have hne : blockOffset b ≠ offset := by
        have := hBefore 0 (by omega)
        simpa [readDisassemblyOffset] using this
      simp only [scanOutcome, if_neg hne]
      split_ifs
      · rfl
      · exact ih (i + 1) k (by simpa using hk)
          (by simpa [readDisassemblyOffset_cons_succ] using hAbove)
          (by simpa [readDisassemblyOffset_cons_succ] using hValid)
          (fun j hj => by
            have := hBefore (j + 1) (by omega)
            simpa [readDisassemblyOffset_cons_succ] using this)

/-- C12 (as amended). When the address under the cursor differs from the target: if the target
is below `topOffset` or above a valid `bottomOffset`, or if the scan from the window start meets
a paragraph whose address exceeds the target and is not the sentinel `RVA_INVALID` before any
paragraph with the target address, `updateCursorPosition` leaves the cursor on the first
paragraph and the extra selections empty. -/
theorem updateCursorPosition_fallback (env : Env) (w : DisassemblyWidget)
    (hDiff : readCurrentDisassemblyOffset w ≠ w.seekOffset) :
    ((w.seekOffset < w.topOffset ∨
        (w.seekOffset > w.bottomOffset ∧ w.bottomOffset ≠ RVA_INVALID)) →
      (updateCursorPosition env w).cursor = 0 ∧
      (updateCursorPosition env w).extraSelections = []) ∧
    (∀ k, k < w.blocks.length →
      readDisassemblyOffset w.blocks k > w.seekOffset →
      readDisassemblyOffset w.blocks k ≠ RVA_INVALID →
      (∀ j, j < k → readDisassemblyOffset w.blocks j ≠ w.seekOffset) →
      (updateCursorPosition env w).cursor = 0 ∧
      (updateCursorPosition env w).extraSelections = []) := by
  rw [updateCursorPosition_eq, if_neg hDiff]
  unfold repositioned
  refine ⟨?_, ?_⟩
  · intro hOut
    rw [if_pos hOut]
    exact ⟨rfl, rfl⟩
  · intro k hk hAbove hValid hBefore
    split_ifs
    · exact ⟨rfl, rfl⟩
    · rw [scanOutcome_passed w.seekOffset w.blocks 0 k hk hAbove hValid hBefore]
      exact ⟨rfl, rfl⟩

/-- C12 (as amended) on the window with lines at 16 and 20, the cursor on the second paragraph
and the target 18: the scan passes the line at 20 and the cursor falls back to the first
paragraph, without extra selections. -/
theorem updateCursorPosition_fallback_witness :
    readCurrentDisassemblyOffset
        { windowOf [16, 20] 16 20 18 with cursor := 1, extraSelections := [.currentLine 1] }
      ≠ ({ windowOf [16, 20] 16 20 18 with cursor := 1, extraSelections := [.currentLine 1] }
          : DisassemblyWidget).seekOffset ∧
    (updateCursorPosition (envOf [])
        { windowOf [16, 20] 16 20 18 with cursor := 1, extraSelections := [.currentLine 1] }).cursor
      = 0 ∧
    (updateCursorPosition (envOf [])
        { windowOf [16, 20] 16 20 18 with
          cursor := 1, extraSelections := [.currentLine 1] }).extraSelections = [] :=
  ⟨by decide,
    (updateCursorPosition_fallback (envOf [])
      { windowOf [16, 20] 16 20 18 with cursor := 1, extraSelections := [.currentLine 1] }
      (by decide)).2 1 (by decide) (by decide) (by decide) (by decide)⟩

/-- C12 fails as stated.  In the window with lines at `RVA_MAX - 3` and `RVA_MAX`, with the
cursor on the second paragraph and the target `RVA_MAX - 2` (inside the window), the scan meets
no paragraph with the target address and meets the paragraph of address `RVA_MAX`, which
exceeds the target; but that address is the value of `RVA_INVALID`, the test
`lineOffset != RVA_INVALID` fails, the scan runs to the end, and the cursor and the extra
selections stay as they were. -/
theorem updateCursorPosition_no_fallback_at_sentinel :
    readCurrentDisassemblyOffset windowAtEnd ≠ windowAtEnd.seekOffset ∧
    windowAtEnd.topOffset ≤ windowAtEnd.seekOffset ∧
    windowAtEnd.seekOffset ≤ windowAtEnd.bottomOffset ∧
    windowAtEnd.blocks = [some (lineAt (RVA_MAX - 3)), some (lineAt RVA_MAX)] ∧
    windowAtEnd.seekOffset < (lineAt RVA_MAX).offset ∧
    (lineAt (RVA_MAX - 3)).offset ≠ windowAtEnd.seekOffset ∧
    (updateCursorPosition (envOf []) windowAtEnd).cursor = 1 ∧
    (updateCursorPosition (envOf []) windowAtEnd).extraSelections = [.currentLine 1] :=
  ⟨by decide, by decide, by decide, by decide, by decide, by decide, by decide, by decide⟩

/-! ## Notification suppression -/

theorem tracedPositionLoop_fst (env : Env) (t : Traced) (offset : Nat) (l : List Block)
    (i : Nat) :
    (tracedPositionLoop env t offset i l).1 = positionLoop env t.1 offset i l := by
  induction l generalizing i with
  | nil => rfl
  | cons b rest ih =>
    simp only [tracedPositionLoop, positionLoop]
    by_cases h1 : blockOffset b = offset
    · simp only [if_pos h1]
      rfl
    · by_cases h2 : blockOffset b ≠ RVA_INVALID ∧ blockOffset b > offset
      · simp only [if_neg h1, if_pos h2]
        rfl
      · simp only [if_neg h1, if_neg h2]
        exact ih (i + 1)

theorem tracedUpdateCursorPosition_fst (env : Env) (t : Traced) :
    (tracedUpdateCursorPosition env t).1 = updateCursorPosition env t.1 := by
  unfold tracedUpdateCursorPosition updateCursorPosition
  simp only [Traced.step, Traced.edit]
  split_ifs <;> simp [tracedPositionLoop_fst, Traced.step, Traced.edit]

theorem tracedRenderLoop_fst (topOffset : Nat) (ls : List DisassemblyLine) (c : Nat)
    (t : Traced) :
    (tracedRenderLoop topOffset ls c t).1 = renderLoop topOffset ls c t.1 := by
  induction ls generalizing c t with
  | nil => rfl
  | cons line rest ih =>
    simp only [tracedRenderLoop, renderLoop]
    split_ifs
    · rfl
    · exact ih (c + 1) _

theorem tracedRender_fst (env : Env) (t : Traced) :
    (tracedRender env t).1 = render env t.1 := by
  unfold tracedRender render
  simp only [Traced.step, Traced.edit, tracedRenderLoop_fst]

theorem tracedRefreshDisasm_fst (env : Env) (t : Traced) (offset : Nat) :
    (tracedRefreshDisasm env t offset).1 = refreshDisasm env t.1 offset := by
  unfold tracedRefreshDisasm refreshDisasm
  by_cases ha : env.attemptRefresh (if offset = RVA_INVALID then none else some offset) = true
  · simp only [ha, Bool.not_true, Bool.false_eq_true, if_false]
    by_cases ho : offset = RVA_INVALID
    · simp only [ho, ne_eq, not_true_eq_false, if_false]
      split_ifs
      · rfl
      · rfl
      · rw [tracedUpdateCursorPosition_fst, tracedRender_fst]
    · simp only [ne_eq, ho, not_false_eq_true, if_true, Traced.step]
      split_ifs
      · rfl
      · rfl
      · rw [tracedUpdateCursorPosition_fst, tracedRender_fst]
  · simp only [ha, Bool.not_false, if_true]

theorem allDisconnected_edit (t : Traced) (touched : List Touched)
    (f : DisassemblyWidget → DisassemblyWidget) (hc : t.1.connections = 0)
    (hlog : allDisconnected t.2) : allDisconnected (t.edit touched f).2 := by
  intro e he
  simp only [Traced.edit, List.mem_append, List.mem_map] at he
  rcases he with he | ⟨k, -, rfl⟩
  · exact hlog e he
  · exact hc

theorem tracedPositionLoop_log (env : Env) (t : Traced) (offset : Nat) (l : List Block)
    (i : Nat) (hc : t.1.connections = 0) (hlog : allDisconnected t.2) :
    (tracedPositionLoop env t offset i l).1.connections = 0 ∧
    allDisconnected (tracedPositionLoop env t offset i l).2 := by
  induction l generalizing i with
  | nil => exact ⟨hc, hlog⟩
  | cons b rest ih =>
    simp only [tracedPositionLoop]
    by_cases h1 : blockOffset b = offset
    · simp only [if_pos h1]
      exact ⟨hc, allDisconnected_edit _ _ _ hc (allDisconnected_edit _ _ _ hc hlog)⟩
    · by_cases h2 : blockOffset b ≠ RVA_INVALID ∧ blockOffset b > offset
      · simp only [if_neg h1, if_pos h2]
        exact ⟨hc, allDisconnected_edit _ _ _ hc (allDisconnected_edit _ _ _ hc hlog)⟩
      · simp only [if_neg h1, if_neg h2]
        exact ih (i + 1)

theorem tracedUpdateCursorPosition_log (env : Env) (t : Traced) (hlog : allDisconnected t.2) :
    allDisconnected (tracedUpdateCursorPosition env t).2 := by
  unfold tracedUpdateCursorPosition
  simp only
  by_cases h0 : readCurrentDisassemblyOffset t.1 = t.1.seekOffset
  · rw [if_pos h0]
    exact hlog
  · rw [if_neg h0]
    have hc1 : (t.step fun w => connectCursorPositionChanged w true).1.connections = 0 := rfl
    have hl1 : allDisconnected (t.step fun w => connectCursorPositionChanged w true).2 := hlog
    generalize (t.step fun w => connectCursorPositionChanged w true) = t1 at hc1 hl1 ⊢
    show allDisconnected (Traced.step _ _).2
    simp only [Traced.step]
    split_ifs
    · exact allDisconnected_edit _ _ _ hc1 (allDisconnected_edit _ _ _ hc1 hl1)
    · obtain ⟨p1, p2⟩ := tracedPositionLoop_log env t1 t.1.seekOffset t1.1.blocks 0 hc1 hl1
      exact allDisconnected_edit _ _ _ p1 p2
    · exact (tracedPositionLoop_log env t1 t.1.seekOffset t1.1.blocks 0 hc1 hl1).2

theorem tracedRenderLoop_log (topOffset : Nat) (ls : List DisassemblyLine) (c : Nat)
    (t : Traced) (hc : t.1.connections = 0) (hlog : allDisconnected t.2) :
    (tracedRenderLoop topOffset ls c t).1.connections = 0 ∧
    allDisconnected (tracedRenderLoop topOffset ls c t).2 := by
  induction ls generalizing c t with
  | nil => exact ⟨hc, hlog⟩
  | cons line rest ih =>
    simp only [tracedRenderLoop]
    split_ifs
    · exact ⟨hc, hlog⟩
    · exact ih (c + 1) _ hc (allDisconnected_edit _ _ _ hc hlog)

theorem computeBottomOffset_connections (w : DisassemblyWidget) :
    (computeBottomOffset w).connections = w.connections :=
  (computeBottomOffset_frame w).2.2.2.2.2.2.2.2

theorem tracedRender_log (env : Env) (t : Traced) (hlog : allDisconnected t.2) :
    allDisconnected (tracedRender env t).2 := by
  unfold tracedRender
  simp only
  have hc2 : ((t.step fun w =>
      { w with lines := env.disassembleLines w.topOffset w.maxLines }).step
      fun w => connectCursorPositionChanged w true).1.connections = 0 := rfl
  have hl2 : allDisconnected ((t.step fun w =>
      { w with lines := env.disassembleLines w.topOffset w.maxLines }).step
      fun w => connectCursorPositionChanged w true).2 := hlog
  generalize ((t.step fun w =>
      { w with lines := env.disassembleLines w.topOffset w.maxLines }).step
      fun w => connectCursorPositionChanged w true) = t2 at hc2 hl2 ⊢
  have hc3 : (t2.edit [.content, .cursor] documentClear).1.connections = 0 := hc2
  have hl3 := allDisconnected_edit t2 [.content, .cursor] documentClear hc2 hl2
  generalize t2.edit [.content, .cursor] documentClear = t3 at hc3 hl3 ⊢
  obtain ⟨hc4, hl4⟩ := tracedRenderLoop_log t3.1.topOffset t3.1.lines 0 t3 hc3 hl3
  generalize tracedRenderLoop t3.1.topOffset t3.1.lines 0 t3 = t4 at hc4 hl4 ⊢
  have hc5 : (t4.step computeBottomOffset).1.connections = 0 :=
    (computeBottomOffset_connections t4.1).trans hc4
  have hl5 : allDisconnected (t4.step computeBottomOffset).2 := hl4
  generalize t4.step computeBottomOffset = t5 at hc5 hl5 ⊢
  exact allDisconnected_edit t5 [.content, .cursor] removeAdditionalLines hc5 hl5

theorem tracedRefreshDisasm_log (env : Env) (t : Traced) (offset : Nat)
    (hlog : allDisconnected t.2) :
    allDisconnected (tracedRefreshDisasm env t offset).2 := by
  unfold tracedRefreshDisasm
  have hstep : allDisconnected
      (if offset ≠ RVA_INVALID then t.step fun w => { w with topOffset := offset } else t).2 := by
    split_ifs
    · exact hlog
    · exact hlog
  generalize (if offset ≠ RVA_INVALID then t.step fun w => { w with topOffset := offset }
    else t) = t1 at hstep ⊢
  simp only
  by_cases ha : (!env.attemptRefresh (if offset = RVA_INVALID then none else some offset)) = true
  · rw [if_pos ha]
    exact hlog
  · rw [if_neg ha]
    by_cases ht : t1.1.topOffset = RVA_INVALID
    · rw [if_pos ht]
      exact hstep
    · rw [if_neg ht]
      by_cases hm : t1.1.maxLines ≤ 0
      · rw [if_pos hm]
        exact allDisconnected_edit (t1.step fun w => connectCursorPositionChanged w true)
          [.content, .cursor, .selections] clear rfl hstep
      · rw [if_neg hm]
        exact tracedUpdateCursorPosition_log env _ (tracedRender_log env t1 hstep)

theorem repositioned_connections (env : Env) (w : DisassemblyWidget) :
    (repositioned env w).connections = 1 := by
  unfold repositioned
  split_ifs
  · rfl
  · cases scanOutcome w.seekOffset 0 w.blocks <;> rfl

theorem updateCursorPosition_connections (env : Env) (w : DisassemblyWidget)
    (h : w.connections = 1) : (updateCursorPosition env w).connections = 1 := by
  rw [updateCursorPosition_eq]
  split_ifs
  · exact h
  · exact repositioned_connections env w

theorem refreshDisasm_connections (env : Env) (w : DisassemblyWidget) (offset : Nat)
    (h : w.connections = 1) : (refreshDisasm env w offset).connections = 1 := by
  rw [refreshDisasm_eq]
  by_cases ha : env.attemptRefresh (if offset = RVA_INVALID then none else some offset) = true
  · rw [if_pos ha]
    by_cases ht : requestedTop w offset = RVA_INVALID
    · rw [if_pos ht]
      exact h
    · rw [if_neg ht]
      by_cases hm : w.maxLines ≤ 0
      · rw [if_pos hm]
        rfl
      · rw [if_neg hm]
        exact updateCursorPosition_connections env _ (render_spec env _).2.2.2.2.2.2.2.2
  · rw [if_neg ha]
    exact h

/-- C11. Notification suppression.  Started with the `cursorPositionChanged` signal connected
exactly once, `refreshDisasm` (on every exit path: deferred, no valid top, no capacity,
rendered) and `updateCursorPosition` (cursor already on the target, or repositioned) end with it
connected exactly once; and in the run with the edits recorded, which reaches the same state,
every edit of the content, the cursor or the extra selections of the text edit is made while
the signal has no connection. -/
theorem notification_suppression (env : Env) (w : DisassemblyWidget) (offset : Nat)
    (hConnected : w.connections = 1) :
    (refreshDisasm env w offset).connections = 1 ∧
    (updateCursorPosition env w).connections = 1 ∧
    (tracedRefreshDisasm env (w, []) offset).1 = refreshDisasm env w offset ∧
    (tracedUpdateCursorPosition env (w, [])).1 = updateCursorPosition env w ∧
    (∀ e ∈ (tracedRefreshDisasm env (w, []) offset).2, e.connections = 0) ∧
    (∀ e ∈ (tracedUpdateCursorPosition env (w, [])).2, e.connections = 0) :=
  ⟨refreshDisasm_connections env w offset hConnected,
    updateCursorPosition_connections env w hConnected,
    tracedRefreshDisasm_fst env (w, []) offset,
    tracedUpdateCursorPosition_fst env (w, []),
    tracedRefreshDisasm_log env (w, []) offset (fun _ h => absurd h (List.not_mem_nil _)),
    tracedUpdateCursorPosition_log env (w, []) (fun _ h => absurd h (List.not_mem_nil _))⟩

/-- C11 on the freshly constructed widget with capacity 3 and the seek offset at 17, refreshed
at 16 with fetched lines at 16, 17, 18, 19: fourteen edits are recorded (the clearing of the
document, four rendered lines, the removal of the fourth, the repositioning of the cursor and
the highlighting), each with no connection, and the signal ends connected once. -/
theorem notification_suppression_witness :
    (constructed 3 17).connections = 1 ∧
    (tracedRefreshDisasm (envOf [lineAt 16, lineAt 17, lineAt 18, lineAt 19])
      (constructed 3 17, []) 16).2.length = 14 ∧
    (refreshDisasm (envOf [lineAt 16, lineAt 17, lineAt 18, lineAt 19])
      (constructed 3 17) 16).connections = 1 ∧
    (updateCursorPosition (envOf [lineAt 16, lineAt 17, lineAt 18, lineAt 19])
      (constructed 3 17)).connections = 1 ∧
    (tracedRefreshDisasm (envOf [lineAt 16, lineAt 17, lineAt 18, lineAt 19])
      (constructed 3 17, []) 16).1
      = refreshDisasm (envOf [lineAt 16, lineAt 17, lineAt 18, lineAt 19]) (constructed 3 17) 16 ∧
    (tracedUpdateCursorPosition (envOf [lineAt 16, lineAt 17, lineAt 18, lineAt 19])
      (constructed 3 17, [])).1
      = updateCursorPosition (envOf [lineAt 16, lineAt 17, lineAt 18, lineAt 19])
          (constructed 3 17) ∧
    (∀ e ∈ (tracedRefreshDisasm (envOf [lineAt 16, lineAt 17, lineAt 18, lineAt 19])
      (constructed 3 17, []) 16).2, e.connections = 0) ∧
    (∀ e ∈ (tracedUpdateCursorPosition (envOf [lineAt 16, lineAt 17, lineAt 18, lineAt 19])
      (constructed 3 17, [])).2, e.connections = 0) :=
  ⟨rfl, by decide,
    notification_suppression (envOf [lineAt 16, lineAt 17, lineAt 18, lineAt 19])
      (constructed 3 17) 16 rfl⟩

end Cutter
